import Mathlib

/-!
Verification of the mcp-jest test-orchestration engine (orchestrator /
expectation evaluator / snapshot store) against its natural-language
specification.

The TypeScript sources are shallowly embedded:
* JavaScript JSON-like runtime values become the inductive `JValue`
  (JS numbers are IEEE doubles; they are modelled as exact rationals, which
  agrees with the source on every integral value appearing in the claims).
* JavaScript string operations are re-implemented over `List Char`
  (`String.data`), so that every definition computes by kernel reduction.
* Stateful classes become explicit state passing; `async` methods that can
  reject become `Except String` values (JS `Error` objects are modelled by
  their `.message` string); the external MCP client is an oracle structure
  whose fields give the outcome of each protocol call.
* Wall-clock readings (`Date.now()`, `toISOString()`) are environmental;
  durations are modelled as `0` and timestamps as an ambient state field.
-/

/-! ## JSON-like runtime values (runner/snapshot data model) -/

/-- Value model for the loosely typed JavaScript data the engine evaluates:
`undefined`, `null`, booleans, numbers, strings, arrays and plain objects
(an object is an insertion-ordered association list; JS guarantees its keys
are distinct). -/
inductive JValue where
  | undef
  | null
  | bool (b : Bool)
  | num (q : Rat)
  | str (s : String)
  | arr (elems : List JValue)
  | obj (members : List (String × JValue))

/-- Keys of an object member list (`Object.keys`). -/
def jkeys (kvs : List (String × JValue)) : List String := kvs.map (·.1)

/-- Property lookup on an object member list: first binding wins, a missing
key yields JS `undefined`. -/
def jlookup (kvs : List (String × JValue)) (k : String) : JValue :=
  match kvs.find? (fun kv => kv.1 = k) with
  | some kv => kv.2
  | none => JValue.undef

/-! ## Character-level string helpers (JS string operations) -/

/-- Whitespace test for the regex class `\s` (ASCII fragment; the expectation
grammar of the source only ever meets ASCII whitespace). -/
def isWsChar (c : Char) : Bool :=
  c = ' ' ∨ c = '\t' ∨ c = '\n' ∨ c = '\r' ∨ c = Char.ofNat 11 ∨ c = Char.ofNat 12

/-- Decimal digit test for the regex class `\d`. -/
def isDigitChar (c : Char) : Bool := '0' ≤ c ∧ c ≤ '9'

/-- JS `String.prototype.trim`, over the character list. -/
def trimChars (cs : List Char) : List Char :=
  ((cs.dropWhile isWsChar).reverse.dropWhile isWsChar).reverse

/-- Containment of one character sequence in another (JS `includes`). -/
def listContains (needle : List Char) : List Char → Bool
  | [] => needle.isPrefixOf []
  | c :: cs => needle.isPrefixOf (c :: cs) || listContains needle cs

/-- JS `str.includes(sub)`. -/
def strIncludes (s sub : String) : Bool := listContains sub.data s.data

/-- JS `str.includes(c)` for a single character. -/
def strIncludesChar (s : String) (c : Char) : Bool := s.data.contains c

/-- JS `str.startsWith(pre)`. -/
def strStartsWith (s pre : String) : Bool := pre.data.isPrefixOf s.data

/-- JS `str.endsWith(suf)`. -/
def strEndsWith (s suf : String) : Bool := suf.data.isSuffixOf s.data

/-- JS `str.trim()`. -/
def strTrim (s : String) : String := ⟨trimChars s.data⟩

/-- JS `str.slice(1, -1)` (used to strip quotes; empty when too short). -/
def sliceOneToMinusOne (s : String) : String :=
  ⟨(s.data.drop 1).dropLast⟩

/-- JS `split('.')` over a character list: splits at every separator
occurrence, keeping empty pieces, like `"a..b".split('.') = ["a","","b"]`. -/
def splitOnChar (sep : Char) : List Char → List (List Char)
  | [] => [[]]
  | c :: cs =>
    if c = sep then [] :: splitOnChar sep cs
    else
      match splitOnChar sep cs with
      | [] => [[c]]
      | p :: ps => (c :: p) :: ps

/-- JS `split('&&')`: splits at every (leftmost, non-overlapping) occurrence
of the two-character separator, as in `"a&&&b".split('&&') = ["a","&b"]`. -/
def splitOnAmpAmp : List Char → List (List Char)
  | [] => [[]]
  | '&' :: '&' :: cs => [] :: splitOnAmpAmp cs
  | c :: cs =>
    match splitOnAmpAmp cs with
    | [] => [[c]]
    | p :: ps => (c :: p) :: ps

/-- Digits-to-number accumulator for `parseInt(·, 10)` on a digit run. -/
def digitsToNat (ds : List Char) : Nat :=
  ds.foldl (fun acc c => acc * 10 + (c.toNat - '0'.toNat)) 0

/-! ## Expectation evaluator (runner.ts `evaluateExpectation` and helpers) -/

/-- Test for JS `value === null`. -/
def isNullV : JValue → Bool
  | .null => true
  | _ => false

/-- Test for JS `value === undefined`. -/
def isUndefV : JValue → Bool
  | .undef => true
  | _ => false

/-- JS truthiness `Boolean(v)` (the model has no `NaN` values). -/
def truthy : JValue → Bool
  | .undef => false
  | .null => false
  | .bool b => b
  | .num q => !(q = 0)
  | .str s => !(s = "")
  | .arr _ => true
  | .obj _ => true

/-- Exact decimal rendering of a rational, matching JS number-to-string on
the values that arise in the source (integers, and finite decimals; a
denominator with prime factors other than 2 and 5 cannot arise from JSON
input and falls back to a fraction rendering). -/
def stripFac (p : Nat) : Nat → Nat → Nat × Nat
  | 0, n => (0, n)
  | fuel + 1, n =>
    if n % p = 0 ∧ 1 < n then
      let r := stripFac p fuel (n / p)
      (r.1 + 1, r.2)
    else (0, n)

/-- Decimal digit string of a natural number. -/
def natDigits (n : Nat) : String := Nat.repr n

/-- Number-to-string rendering used by `ToPrimitive`/`Array.join`. -/
def ratToString (q : Rat) : String :=
  if q.den = 1 then toString q.num
  else
    let a := (stripFac 2 q.den q.den).1
    let d2 := (stripFac 2 q.den q.den).2
    let b := (stripFac 5 d2 d2).1
    let d5 := (stripFac 5 d2 d2).2
    if d5 ≠ 1 then toString q.num ++ "/" ++ natDigits q.den
    else
      let k := max a b
      let scaled := q.num.natAbs * 10 ^ k / q.den
      let intPart := scaled / 10 ^ k
      let fracPart := scaled % 10 ^ k
      let fracStr := natDigits fracPart
      let pad := String.mk (List.replicate (k - fracStr.data.length) '0')
      (if q.num < 0 then "-" else "") ++ natDigits intPart ++ "." ++ pad ++ fracStr

mutual
/-- JS `String(v)` (`ToPrimitive` followed by `ToString`) on the value
model: arrays render as their comma join, plain objects as
`[object Object]`. -/
def jsToString : JValue → String
  | .undef => "undefined"
  | .null => "null"
  | .bool b => if b then "true" else "false"
  | .num q => ratToString q
  | .str s => s
  | .arr es => arrJoin es
  | .obj _ => "[object Object]"

/-- `Array.prototype.join(',')`; `null` and `undefined` elements render
empty, nested arrays render as their own join. -/
def arrJoin : List JValue → String
  | [] => ""
  | [e] => joinElem e
  | e :: es => joinElem e ++ "," ++ arrJoin es

/-- Rendering of one array element inside a join. -/
def joinElem : JValue → String
  | .undef => ""
  | .null => ""
  | .bool b => if b then "true" else "false"
  | .num q => ratToString q
  | .str s => s
  | .arr es => arrJoin es
  | .obj _ => "[object Object]"
end

/-- `ToNumber` on a string (used by loose equality): trimmed empty string is
`0`, an optionally signed decimal literal parses exactly, anything else is
`NaN` (`none`). -/
def strToNumber (s : String) : Option Rat :=
  let t := trimChars s.data
  if t.isEmpty then some 0
  else
    let (sign, body) :=
      match t with
      | '-' :: rest => ((-1 : Rat), rest)
      | '+' :: rest => ((1 : Rat), rest)
      | _ => ((1 : Rat), t)
    let intPart := body.takeWhile isDigitChar
    if intPart.isEmpty then none
    else
      match body.drop intPart.length with
      | [] => some (sign * digitsToNat intPart)
      | '.' :: frac =>
        if !frac.isEmpty ∧ frac.all isDigitChar then
          some (sign * ((digitsToNat intPart : Rat) + (digitsToNat frac : Rat) / (10 : Rat) ^ frac.length))
        else none
      | _ => none

/-- JS strict equality `===` restricted to the model: structural on
primitives; for arrays/objects the source semantics is reference equality,
which never holds between the traversed value and a parsed literal (the
only operands `compareValues` receives), so it is modelled as `false`. -/
def jsStrictEq : JValue → JValue → Bool
  | .null, .null => true
  | .undef, .undef => true
  | .bool x, .bool y => x = y
  | .num x, .num y => x = y
  | .str x, .str y => x = y
  | _, _ => false

/-- Abstract (loose) equality on primitive operands. -/
def loosePrim : JValue → JValue → Bool
  | .null, .null => true
  | .undef, .undef => true
  | .null, .undef => true
  | .undef, .null => true
  | .bool x, .bool y => x = y
  | .num x, .num y => x = y
  | .str x, .str y => x = y
  | .num x, .str s => (strToNumber s).any (fun y => x = y)
  | .str s, .num y => (strToNumber s).any (fun x => x = y)
  | .bool x, .num y => (if x then (1 : Rat) else 0) = y
  | .num x, .bool y => x = (if y then (1 : Rat) else 0)
  | .bool x, .str s => (strToNumber s).any (fun y => (if x then (1 : Rat) else 0) = y)
  | .str s, .bool y => (strToNumber s).any (fun x => x = (if y then (1 : Rat) else 0))
  | _, _ => false

/-- Conversion step of loose equality for object operands. -/
def toPrimValue : JValue → Option JValue
  | .arr es => some (.str (jsToString (.arr es)))
  | .obj ms => some (.str (jsToString (.obj ms)))
  | _ => none

/-- JS loose equality `==` on the model (ES abstract equality; two object
operands compare by reference, modelled `false` as in `jsStrictEq`). -/
def jsLooseEq (a b : JValue) : Bool :=
  match toPrimValue a, toPrimValue b with
  | some _, some _ => false
  | some pa, none =>
    (match b with
     | .null => false
     | .undef => false
     | _ => loosePrim pa b)
  | none, some pb =>
    (match a with
     | .null => false
     | .undef => false
     | _ => loosePrim a pb)
  | none, none => loosePrim a b

/-- Numeric pair extraction for the relational operators (the source guards
them with `typeof actual === 'number' && typeof expected === 'number'`). -/
def bothNums : JValue → JValue → Option (Rat × Rat)
  | .num x, .num y => some (x, y)
  | _, _ => none

/-- Operator dispatch of `MCPTestRunner.compareValues`. -/
def compareValues (actual : JValue) (op : String) (expected : JValue) : Bool :=
  if op = "===" then jsStrictEq actual expected
  else if op = "==" then jsLooseEq actual expected
  else if op = "!==" then !jsStrictEq actual expected
  else if op = "!=" then !jsLooseEq actual expected
  else if op = ">" then (bothNums actual expected).any (fun p => p.1 > p.2)
  else if op = ">=" then (bothNums actual expected).any (fun p => p.1 ≥ p.2)
  else if op = "<" then (bothNums actual expected).any (fun p => p.1 < p.2)
  else if op = "<=" then (bothNums actual expected).any (fun p => p.1 ≤ p.2)
  else false

/-! ## Property path traversal (`MCPTestRunner.getPropertyValue`) -/

/-- Canonical array index: JS treats `arr["3"]` as an element access only for
the canonical decimal form (non-empty digits, no leading zero). -/
def canonicalIndex? (key : List Char) : Option Nat :=
  if !key.isEmpty ∧ key.all isDigitChar ∧ (key = ['0'] ∨ key.head? ≠ some '0') then
    some (digitsToNat key)
  else none

/-- Plain JS property access `current[key]` on the model: association lookup
on objects; `length` and canonical indices on arrays and strings; primitives
have no accessible own properties. -/
def jsProp (current : JValue) (key : String) : JValue :=
  match current with
  | .obj kvs => jlookup kvs key
  | .arr xs =>
    if key = "length" then .num xs.length
    else
      match canonicalIndex? key.data with
      | some i => xs.getD i .undef
      | none => .undef
  | .str s =>
    if key = "length" then .num s.data.length
    else
      match canonicalIndex? key.data with
      | some i =>
        (match s.data.drop i with
         | c :: _ => .str ⟨[c]⟩
         | [] => .undef)
      | none => .undef
  | _ => (.undef : JValue)

/-- Match of the regex `^(.+?)\[(\d+)\]$` tail: the remainder must be exactly
one bracketed digit run. -/
def bracketSuffix : List Char → Option Nat
  | '[' :: rest =>
    let ds := rest.takeWhile isDigitChar
    if ds.isEmpty then none
    else if rest.drop ds.length = [']'] then some (digitsToNat ds) else none
  | _ => none

/-- Lazy scan for `^(.+?)\[(\d+)\]$`: the shortest non-empty property name
whose remainder is exactly `[index]`. -/
def parseBracketKeyAux (acc : List Char) : List Char → Option (List Char × Nat)
  | [] => none
  | c :: rest =>
    match bracketSuffix rest with
    | some i => some (acc ++ [c], i)
    | none => parseBracketKeyAux (acc ++ [c]) rest

/-- Array-access key match used in `getPropertyValue` (`"content[0]"`). -/
def parseBracketKey (key : List Char) : Option (List Char × Nat) :=
  parseBracketKeyAux [] key

/-- One step of the `reduce` in `getPropertyValue`: `null`/`undefined`
intermediates collapse to `undefined`; keys shaped `name[i]` index into an
array-valued property (non-arrays yield `undefined`); other keys are plain
accesses. -/
def propStep (current : JValue) (key : List Char) : JValue :=
  match current with
  | .null => .undef
  | .undef => .undef
  | cur =>
    if key.contains '[' ∧ key.contains ']' then
      match parseBracketKey key with
      | some pi =>
        (match jsProp cur ⟨pi.1⟩ with
         | .arr xs => xs.getD pi.2 .undef
         | _ => .undef)
      | none => jsProp cur ⟨key⟩
    else jsProp cur ⟨key⟩

/-- Object test for the guard `!obj || typeof obj !== 'object'` (arrays and
plain objects; `null` is excluded by falsiness before the `typeof` check). -/
def isObjectLike : JValue → Bool
  | .arr _ => true
  | .obj _ => true
  | _ => false

/-- Dotted/bracketed path resolution `MCPTestRunner.getPropertyValue`: a
non-object root resolves to `undefined`, otherwise the dot-split path is
folded over `propStep`. -/
def getPropertyValue (v : JValue) (path : String) : JValue :=
  if !(isObjectLike v) then .undef
  else (splitOnChar '.' path.data).foldl propStep v

/-! ## Comparison-expression matching (`^(.+?)\s*(===|==|!==|!=|>=|<=|>|<)\s*(.+)$`) -/

/-- The operator alternation of the comparison regex, in trial order. -/
def comparisonOps : List (List Char) :=
  [['=', '=', '='], ['=', '='], ['!', '=', '='], ['!', '='],
   ['>', '='], ['<', '='], ['>'], ['<']]

/-- Match of `\s*(op)\s*(.+)$` against the remainder after a candidate
property path: whitespace is skipped (no operator starts with whitespace),
each operator is tried in alternation order, and after the operator at least
one character must remain — greedy `\s*` backtracks to leave it, so a
whitespace-only tail still matches with a whitespace literal. -/
def matchOpRest (rest : List Char) : Option (List Char × List Char) :=
  let afterWs := rest.dropWhile isWsChar
  comparisonOps.findSome? fun op =>
    if op.isPrefixOf afterWs then
      let t := afterWs.drop op.length
      if t.isEmpty then none
      else some (op, t.drop (min (t.takeWhile isWsChar).length (t.length - 1)))
    else none

/-- Lazy scan of `^(.+?)\s*(op)\s*(.+)$`: the shortest non-empty prefix
(property path) whose remainder matches an operator and expected value. -/
def matchCompAux (acc : List Char) : List Char → Option (List Char × List Char × List Char)
  | [] => none
  | c :: rest =>
    match matchOpRest rest with
    | some opex => some (acc ++ [c], opex.1, opex.2)
    | none => matchCompAux (acc ++ [c]) rest

/-- Comparison-pattern match used by `evaluatePropertyExpectation`; yields
`(propertyPath, operator, expectedValueStr)`. -/
def matchComparison (cs : List Char) : Option (List Char × List Char × List Char) :=
  matchCompAux [] cs

/-! ## Expected-value literal parsing (`MCPTestRunner.parseExpectedValue`) -/

/-- Test for the regex `^\d+(\.\d+)?$`. -/
def isNumericLiteral (cs : List Char) : Bool :=
  let intPart := cs.takeWhile isDigitChar
  if intPart.isEmpty then false
  else
    match cs.drop intPart.length with
    | [] => true
    | '.' :: frac => !frac.isEmpty ∧ frac.all isDigitChar
    | _ => false

/-- Value of a `^\d+(\.\d+)?$` literal (`parseFloat`; exact here, and exact
in the source for the integral literals the claims exercise). -/
def parseDecimal (cs : List Char) : Rat :=
  let intPart := cs.takeWhile isDigitChar
  match cs.drop intPart.length with
  | '.' :: frac => (digitsToNat intPart : Rat) + (digitsToNat frac : Rat) / (10 : Rat) ^ frac.length
  | _ => (digitsToNat intPart : Rat)

/-- Literal parser `MCPTestRunner.parseExpectedValue`: strip matching quotes,
else parse a number, else the keywords `true/false/null/undefined`, else the
bare string itself. -/
def parseExpectedValue (s : String) : JValue :=
  if (strStartsWith s "\"" ∧ strEndsWith s "\"") ∨ (strStartsWith s "'" ∧ strEndsWith s "'") then
    .str (sliceOneToMinusOne s)
  else if isNumericLiteral s.data then .num (parseDecimal s.data)
  else if s = "true" then .bool true
  else if s = "false" then .bool false
  else if s = "null" then .null
  else if s = "undefined" then .undef
  else .str s

/-! ## Termination facts for the conjunction branch of the evaluator -/

/-- Trimming never lengthens a character list. -/
theorem trimChars_length_le (cs : List Char) : (trimChars cs).length ≤ cs.length := by
  unfold trimChars
  have h1 := (List.dropWhile_sublist (l := cs) isWsChar).length_le
  have h2 := (List.dropWhile_sublist (l := (cs.dropWhile isWsChar).reverse) isWsChar).length_le
  simp only [List.length_reverse] at *
  omega

/-- Unfolding of the catch-all case of `splitOnAmpAmp`. -/
theorem splitOnAmpAmp_cons_ne (c : Char) (cs : List Char)
    (h : ∀ cs1, c = '&' → cs = '&' :: cs1 → False) :
    splitOnAmpAmp (c :: cs) =
      (match splitOnAmpAmp cs with
       | [] => [[c]]
       | p :: ps => (c :: p) :: ps) := by
  conv_lhs => rw [splitOnAmpAmp.eq_def]
  split
  next heq => exact (List.cons_ne_nil _ _ heq).elim
  next cs1 heq =>
    rw [List.cons.injEq] at heq
    exact (h cs1 heq.1 heq.2).elim
  next c2 cs2 hne heq =>
    rw [List.cons.injEq] at heq
    obtain ⟨hc, hcs⟩ := heq
    subst hc hcs
    rfl

/-- Splitting on `&&` always yields at least one piece. -/
theorem splitOnAmpAmp_ne_nil (cs : List Char) : splitOnAmpAmp cs ≠ [] := by
  induction cs using splitOnAmpAmp.induct with
  | case1 => simp [splitOnAmpAmp]
  | case2 cs ih => simp [splitOnAmpAmp]
  | case3 c cs h hnil ih => exact absurd hnil ih
  | case4 c cs h p ps hps ih =>
    rw [splitOnAmpAmp_cons_ne c cs h, hps]
    simp

/-- Piece lengths of a `&&` split account for the removed separators. -/
theorem splitOnAmpAmp_sum (cs : List Char) :
    ((splitOnAmpAmp cs).map List.length).sum + 2 * ((splitOnAmpAmp cs).length - 1) = cs.length := by
  induction cs using splitOnAmpAmp.induct with
  | case1 => simp [splitOnAmpAmp]
  | case2 cs ih =>
    have hne := splitOnAmpAmp_ne_nil cs
    show ((splitOnAmpAmp ('&' :: '&' :: cs)).map List.length).sum + _ = _
    rw [show splitOnAmpAmp ('&' :: '&' :: cs) = [] :: splitOnAmpAmp cs from rfl]
    cases hs : splitOnAmpAmp cs with
    | nil => exact absurd hs hne
    | cons p ps =>
      rw [hs] at ih
      simp only [List.map_cons, List.sum_cons, List.length_cons, List.length_nil] at ih ⊢
      omega
  | case3 c cs h hnil ih => exact absurd hnil (splitOnAmpAmp_ne_nil cs)
  | case4 c cs h p ps hps ih =>
    rw [splitOnAmpAmp_cons_ne c cs h, hps]
    rw [hps] at ih
    simp only [List.map_cons, List.sum_cons, List.length_cons] at ih ⊢
    omega

/-- A `&&` occurrence forces the split into at least two pieces. -/
theorem splitOnAmpAmp_two_of_contains (cs : List Char)
    (h : listContains ['&', '&'] cs = true) : 2 ≤ (splitOnAmpAmp cs).length := by
  induction cs using splitOnAmpAmp.induct with
  | case1 => simp [listContains, List.isPrefixOf] at h
  | case2 cs ih =>
    have hne := splitOnAmpAmp_ne_nil cs
    rw [show splitOnAmpAmp ('&' :: '&' :: cs) = [] :: splitOnAmpAmp cs from rfl]
    cases hs : splitOnAmpAmp cs with
    | nil => exact absurd hs hne
    | cons p ps => simp
  | case3 c cs hno hnil ih => exact absurd hnil (splitOnAmpAmp_ne_nil cs)
  | case4 c cs hno p ps hps ih =>
    rw [splitOnAmpAmp_cons_ne c cs hno, hps]
    have hrest : listContains ['&', '&'] cs = true := by
      rw [listContains] at h
      rcases Bool.or_eq_true_iff.mp h with hpre | hrest
      · exfalso
        have := List.isPrefixOf_iff_prefix.mp hpre
        rcases this with ⟨t, ht⟩
        cases cs with
        | nil => simp at ht
        | cons c2 cs2 =>
          rw [List.cons_append, List.cons_append, List.nil_append] at ht
          rw [List.cons.injEq] at ht
          obtain ⟨hc, ht2⟩ := ht
          rw [List.cons.injEq] at ht2
          exact hno (cs2) hc.symm (by rw [ht2.1.symm])
      · exact hrest
    have := ih hrest
    rw [hps] at this
    simpa using this

/-- Bound used for the recursion in the `&&` branch: every trimmed piece of
a string that does contain `&&` is strictly shorter than the string. -/
theorem trimmed_part_lt (cs part : List Char)
    (hmem : part ∈ splitOnAmpAmp cs)
    (hc : listContains ['&', '&'] cs = true) :
    (trimChars part).length < cs.length := by
  have hsum := splitOnAmpAmp_sum cs
  have htwo := splitOnAmpAmp_two_of_contains cs hc
  have hle : part.length ≤ ((splitOnAmpAmp cs).map List.length).sum :=
    List.single_le_sum (by simp) _ (List.mem_map_of_mem List.length hmem)
  have ht := trimChars_length_le part
  omega

/-- Conjunct classifier of the `&&` branch: the source re-enters the
comparison evaluator only for pieces containing `>`, `<` or `===`. -/
def hasCmpIndicator (part : List Char) : Bool :=
  part.contains '>' || part.contains '<' || listContains ['=', '=', '='] part

/-- String-expression evaluator `MCPTestRunner.evaluatePropertyExpectation`
(over the character list of the expression). The comparison pattern is tried
first; only when it fails is the expression split on `&&` (each trimmed
conjunct evaluated independently, re-entering the evaluator when it carries a
comparison indicator); otherwise the expression is a bare property path
coerced to truthiness. The surrounding `try/catch` cannot fire: every helper
is total. -/
def evaluatePropertyExpectation (v : JValue) (cs : List Char) : Bool :=
  match matchComparison cs with
  | some pox =>
    compareValues (getPropertyValue v ⟨trimChars pox.1⟩) ⟨pox.2.1⟩
      (parseExpectedValue ⟨trimChars pox.2.2⟩)
  | none =>
    if hc : listContains ['&', '&'] cs = true then
      (splitOnAmpAmp cs).attach.all fun part =>
        let p := trimChars part.1
        if hasCmpIndicator p then evaluatePropertyExpectation v p
        else truthy (getPropertyValue v ⟨p⟩)
    else truthy (getPropertyValue v ⟨cs⟩)
termination_by cs.length
decreasing_by
  exact trimmed_part_lt cs part.1 part.2 hc

/-- Search-and-match of the unanchored regex `kw\s*([><=]+)\s*(\d+)` at one
position: the keyword literal, optional whitespace, a non-empty greedy run of
comparison characters, optional whitespace, then a non-empty digit run. -/
def matchKeywordCmpAt (kw cs : List Char) : Option (List Char × Nat) :=
  if kw.isPrefixOf cs then
    let rest := (cs.drop kw.length).dropWhile isWsChar
    let opChars := rest.takeWhile fun c => c = '>' ∨ c = '<' ∨ c = '='
    if opChars.isEmpty then none
    else
      let ds := ((rest.drop opChars.length).dropWhile isWsChar).takeWhile isDigitChar
      if ds.isEmpty then none else some (opChars, digitsToNat ds)
  else none

/-- Unanchored search for `kw\s*([><=]+)\s*(\d+)`: first matching position
wins (JS `String.prototype.match` without flags). -/
def matchKeywordCmp (kw : List Char) : List Char → Option (List Char × Nat)
  | [] => none
  | c :: cs =>
    match matchKeywordCmpAt kw (c :: cs) with
    | some r => some r
    | none => matchKeywordCmp kw cs

/-- Operator dispatch of the `length`/`count` branches (`switch (operator)`
over the captured `[><=]+` run; unlisted runs fall to `default: false`). -/
def lengthCmpSwitch (actual : Nat) (op : List Char) (expected : Nat) : Bool :=
  if op = ['>'] then decide (actual > expected)
  else if op = ['>', '='] then decide (actual ≥ expected)
  else if op = ['<'] then decide (actual < expected)
  else if op = ['<', '='] then decide (actual ≤ expected)
  else if op = ['=', '='] ∨ op = ['=', '=', '='] then decide (actual = expected)
  else false

/-- The `actualLength` computed by the `length` branch: array length, string
length, and `0` for everything else. -/
def actualLengthOf : JValue → Nat
  | .arr xs => xs.length
  | .str s => s.data.length
  | _ => 0

/-- The `actualCount` computed by the `count` branch: array length, and `0`
for every non-array — including numbers, so a numeric match count never
satisfies a `count >`/`>=`/`==` expectation. -/
def actualCountOf : JValue → Nat
  | .arr xs => xs.length
  | _ => 0

/-- The `contains:` branch: a substring check on string values (`typeof
value === 'string' && value.includes(substring)`). -/
def containsCheck (value : JValue) (sub : String) : Bool :=
  match value with
  | .str s => strIncludes s sub
  | _ => false

/-- Top-level string-expectation evaluator `MCPTestRunner.evaluateExpectation`,
grammar tried in source order: the literal `exists`; expressions containing a
dot or bracket (delegated to the property evaluator); a `length` comparison;
a `count` comparison; a `contains:` substring check; otherwise `false`. The
source wraps the body in `try/catch`, but every branch is total, so the
function is total and never throws. -/
def evaluateExpectation (value : JValue) (expectation : String) : Bool :=
  if expectation = "exists" then !isNullV value && !isUndefV value
  else if strIncludesChar expectation '.' || strIncludesChar expectation '[' then
    evaluatePropertyExpectation value expectation.data
  else
    match (if strIncludes expectation "length" then
             matchKeywordCmp "length".data expectation.data
           else none) with
    | some opn => lengthCmpSwitch (actualLengthOf value) opn.1 opn.2
    | none =>
      match (if strIncludes expectation "count" then
               matchKeywordCmp "count".data expectation.data
             else none) with
      | some opn => lengthCmpSwitch (actualCountOf value) opn.1 opn.2
      | none =>
        if strStartsWith expectation "contains:" then
          containsCheck value ⟨expectation.data.drop 9⟩
        else false

/-! ## Runner data model (types.ts) -/

/-- Result status (`'pass' | 'fail' | 'skip'`). -/
inductive TestStatus where
  | pass
  | fail
  | skip
deriving DecidableEq, Repr

/-- Result kind (`'connection' | 'capability' | 'tool' | 'resource' | 'prompt'`). -/
inductive TestType where
  | connection
  | capability
  | tool
  | resource
  | prompt
deriving DecidableEq, Repr

/-- One `TestResult` record. JS `Error` values are modelled by their message;
wall-clock durations are modelled as `0`. -/
structure TestResult where
  name : String
  type : TestType
  status : TestStatus
  message : Option String := none
  error : Option String := none
  duration : Nat := 0
deriving DecidableEq, Repr

/-- Aggregate `TestSuite` produced at the end of a run. -/
structure TestSuite where
  total : Nat
  passed : Nat
  failed : Nat
  skipped : Nat
  results : List TestResult
  duration : Nat
deriving DecidableEq, Repr

/-- Aggregation `MCPTestRunner.createTestSuite`: counts are derived from the
accumulated result list by filtering on status. -/
def createTestSuite (results : List TestResult) (duration : Nat) : TestSuite :=
  { total := results.length
    passed := (results.filter fun r => r.status = .pass).length
    failed := (results.filter fun r => r.status = .fail).length
    skipped := (results.filter fun r => r.status = .skip).length
    results := results
    duration := duration }

/-- An `expect` field: either an expression string or a caller-supplied
boolean callback (invoked on the raw result, bypassing the evaluator). -/
inductive Expectation where
  | expr (s : String)
  | callback (f : JValue → Bool)

/-- Evaluation of an `expect` field against an invocation result (the
`typeof config.expect === 'function'` ternary in the source). -/
def evalExpect (e : Expectation) (result : JValue) : Bool :=
  match e with
  | .callback f => f result
  | .expr s => evaluateExpectation result s

/-- Rendering of an `expect` field inside a template literal; a function
stringifies to its source text, which no claim inspects. -/
def expectText : Expectation → String
  | .expr s => s
  | .callback _ => "[function]"

/-- Snapshot selection/exclusion options (`SnapshotConfig`). -/
structure SnapshotConfig where
  name : Option String := none
  properties : Option (List String) := none
  exclude : Option (List String) := none
  updateSnapshot : Option Bool := none

/-- A `snapshot` directive (`boolean | string | SnapshotConfig`); declared in
the config types, not consulted by the runner under verification. -/
inductive SnapshotDirective where
  | flag (b : Bool)
  | named (s : String)
  | config (c : SnapshotConfig)

/-- Per-tool declaration `ToolTestConfig`. -/
structure ToolTestConfig where
  args : Option JValue := none
  expect : Option Expectation := none
  shouldThrow : Option Bool := none
  snapshot : Option SnapshotDirective := none

/-- Per-resource declaration `ResourceTestConfig`. -/
structure ResourceTestConfig where
  expect : Option Expectation := none
  shouldExist : Option Bool := none
  snapshot : Option SnapshotDirective := none

/-- Per-prompt declaration `PromptTestConfig`. -/
structure PromptTestConfig where
  args : Option JValue := none
  expect : Option Expectation := none
  snapshot : Option SnapshotDirective := none

/-- A declaration block that is either a bare name array or a keyed record
(`string[] | Record<string, C>`); records keep insertion order. -/
inductive NamesOrTable (C : Type) where
  | names (l : List String)
  | table (l : List (String × C))

/-- Whole-suite declaration `MCPTestConfig`. -/
structure MCPTestConfig where
  tools : Option (NamesOrTable ToolTestConfig) := none
  resources : Option (NamesOrTable ResourceTestConfig) := none
  prompts : Option (NamesOrTable PromptTestConfig) := none
  timeout : Option Nat := none
  maxRetries : Option Nat := none
  filter : Option String := none
  skip : Option String := none

/-- Normalisation of a declaration block into entries, as in `testTools`
(`Array.isArray ? reduce((acc, name) => ..., {}) : object`): a name array
becomes entries with empty per-item configs. -/
def entriesOf {C : Type} (dflt : C) : NamesOrTable C → List (String × C)
  | .names l => l.map fun n => (n, dflt)
  | .table t => t

/-- Names declared by a block, as in `testCapabilities`
(`Array.isArray ? tools : Object.keys(tools)`). -/
def namesOf {C : Type} : NamesOrTable C → List String
  | .names l => l
  | .table t => t.map (·.1)

/-- Advertised tool entry of the capability catalog. -/
structure MCPToolInfo where
  name : String
  description : Option String := none
deriving DecidableEq, Repr

/-- Advertised resource entry of the capability catalog. -/
structure MCPResourceInfo where
  uri : String
  name : Option String := none
  mimeType : Option String := none
deriving DecidableEq, Repr

/-- Advertised prompt entry of the capability catalog. -/
structure MCPPromptInfo where
  name : String
  description : Option String := none
deriving DecidableEq, Repr

/-- Capability catalog `MCPCapabilities` (each class optional, as typed). -/
structure MCPCapabilities where
  tools : Option (List MCPToolInfo) := none
  resources : Option (List MCPResourceInfo) := none
  prompts : Option (List MCPPromptInfo) := none
deriving DecidableEq, Repr

/-! ## Glob matching (`MCPTestRunner.matchesPattern`) -/

/-- Acceptance of the regex the source builds from a pattern by
`^` + `replace('*' → '.*', '?' → '.')` + `$`: a `*` matches any (possibly
empty) run, `?` matches one character — and so does a literal `.`, which the
source leaves unescaped in the regex. Other characters match themselves
(remaining regex metacharacters never occur in the declarations the claims
exercise). -/
def globMatch : List Char → List Char → Bool
  | [], vs => vs.isEmpty
  | '*' :: ps, vs => vs.tails.any fun suffix => globMatch ps suffix
  | '?' :: ps, vs =>
    (match vs with
     | [] => false
     | _ :: vs2 => globMatch ps vs2)
  | '.' :: ps, vs =>
    (match vs with
     | [] => false
     | _ :: vs2 => globMatch ps vs2)
  | c :: ps, vs =>
    (match vs with
     | [] => false
     | v :: vs2 => v = c && globMatch ps vs2)

/-- Pattern test `MCPTestRunner.matchesPattern(value, pattern)`. -/
def matchesPattern (value pattern : String) : Bool :=
  globMatch pattern.data value.data

/-! ## Orchestrator (runner.ts `MCPTestRunner`) -/

/-- Oracle for the external protocol client as the runner consumes it: the
outcome of connecting (given the timeout the runner passes), of the liveness
ping, of `client.getCapabilities()`, and of each invocation, keyed by name
and arguments. Failures carry the thrown error's message. -/
structure RunnerBehavior where
  connect : Nat → Except String Unit
  ping : Bool
  capabilities : Except String MCPCapabilities
  callTool : String → JValue → Except String JValue
  readResource : String → Except String JValue
  getPrompt : String → JValue → Except String JValue

/-- Connection phase `testConnection`: one `TestResult`, plus the rethrown
error when connecting fails (`timeout || 30000` is the connect timeout). -/
def testConnection (b : RunnerBehavior) (cfg : MCPTestConfig) :
    List TestResult × Option String :=
  match b.connect (cfg.timeout.getD 30000) with
  | .ok _ =>
    ([{ name := "Server Connection", type := .connection, status := .pass,
        message := some ("Successfully connected to MCP server" ++
          (if b.ping then " (ping successful)" else "")) }], none)
  | .error e =>
    ([{ name := "Server Connection", type := .connection, status := .fail,
        message := some ("Failed to connect to server: " ++ e),
        error := some e }], some e)

/-- Discovery phase `getCapabilities` (runner side): one `TestResult`, and
either the catalog or the rethrown error. -/
def getCapabilitiesPhase (b : RunnerBehavior) :
    List TestResult × Except String MCPCapabilities :=
  match b.capabilities with
  | .ok caps =>
    ([{ name := "Capability Discovery", type := .capability, status := .pass,
        message := some ("Found " ++ natDigits ((caps.tools.getD []).length) ++ " tools, " ++
          natDigits ((caps.resources.getD []).length) ++ " resources, " ++
          natDigits ((caps.prompts.getD []).length) ++ " prompts") }], .ok caps)
  | .error e =>
    ([{ name := "Capability Discovery", type := .capability, status := .fail,
        message := some ("Failed to get capabilities: " ++ e),
        error := some e }], .error e)

/-- Existence check for one declared tool name (`testCapabilities`, tools
block). -/
def toolExistsResult (available : List String) (toolName : String) : TestResult :=
  if available.contains toolName then
    { name := "Tool '" ++ toolName ++ "' exists", type := .capability, status := .pass,
      message := some ("Tool '" ++ toolName ++ "' is available") }
  else
    { name := "Tool '" ++ toolName ++ "' exists", type := .capability, status := .fail,
      message := some ("Expected tool '" ++ toolName ++ "' not found. Available tools: " ++
        String.intercalate ", " available) }

/-- Existence check for one declared resource pattern (`testCapabilities`,
resources block; glob match against every advertised URI). -/
def resourceExistsResult (available : List String) (pattern : String) : TestResult :=
  if available.any fun uri => matchesPattern uri pattern then
    { name := "Resource '" ++ pattern ++ "' exists", type := .capability, status := .pass,
      message := some ("Resource pattern '" ++ pattern ++ "' matched") }
  else
    { name := "Resource '" ++ pattern ++ "' exists", type := .capability, status := .fail,
      message := some ("Expected resource pattern '" ++ pattern ++ "' not found. Available: " ++
        String.intercalate ", " available) }

/-- Existence check for one declared prompt name (`testCapabilities`,
prompts block). -/
def promptExistsResult (available : List String) (promptName : String) : TestResult :=
  if available.contains promptName then
    { name := "Prompt '" ++ promptName ++ "' exists", type := .capability, status := .pass,
      message := some ("Prompt '" ++ promptName ++ "' is available") }
  else
    { name := "Prompt '" ++ promptName ++ "' exists", type := .capability, status := .fail,
      message := some ("Expected prompt '" ++ promptName ++ "' not found. Available prompts: " ++
        String.intercalate ", " available) }

/-- Capability-existence phase `testCapabilities`: every declared name/URI
pattern is checked against the discovered catalog, in declaration order. -/
def testCapabilities (caps : MCPCapabilities) (cfg : MCPTestConfig) : List TestResult :=
  (match cfg.tools with
   | some block =>
     (namesOf block).map (toolExistsResult ((caps.tools.getD []).map (·.name)))
   | none => []) ++
  (match cfg.resources with
   | some block =>
     (namesOf block).map (resourceExistsResult ((caps.resources.getD []).map (·.uri)))
   | none => []) ++
  (match cfg.prompts with
   | some block =>
     (namesOf block).map (promptExistsResult ((caps.prompts.getD []).map (·.name)))
   | none => [])

/-- Single-tool check `testTool`: invoke, then judge — on success by the
optional expectation (`shouldThrow` is not consulted on this path), on error
by `shouldThrow` (expected failure passes, anything else fails). -/
def testTool (b : RunnerBehavior) (name : String) (config : ToolTestConfig) : TestResult :=
  match b.callTool name (config.args.getD (.obj [])) with
  | .ok result =>
    (match config.expect with
     | some e =>
       if evalExpect e result then
         { name := "Tool '" ++ name ++ "' execution", type := .tool, status := .pass,
           message := some "Tool executed successfully and met expectations" }
       else
         { name := "Tool '" ++ name ++ "' execution", type := .tool, status := .fail,
           message := some ("Tool executed but did not meet expectations: " ++ expectText e) }
     | none =>
       { name := "Tool '" ++ name ++ "' execution", type := .tool, status := .pass,
         message := some "Tool executed successfully" })
  | .error e =>
    if config.shouldThrow.getD false then
      { name := "Tool '" ++ name ++ "' execution", type := .tool, status := .pass,
        message := some "Tool correctly threw an error as expected" }
    else
      { name := "Tool '" ++ name ++ "' execution", type := .tool, status := .fail,
        message := some ("Tool execution failed: " ++ e), error := some e }

/-- Tool phase `testTools`: every declared tool in declaration order (the
`filter`/`skip` config fields are never consulted here — nothing is ever
marked `skip`). -/
def testTools (b : RunnerBehavior) (cfg : MCPTestConfig) : List TestResult :=
  match cfg.tools with
  | some block => (entriesOf {} block).map fun e => testTool b e.1 e.2
  | none => []

/-- Count check `testResourceCount`: the number of matching resources is
judged by the expectation (callback or expression) — the body's `try/catch`
is unreachable since nothing here throws. -/
def testResourceCount (pattern : String) (count : Nat) (config : ResourceTestConfig) :
    TestResult :=
  match config.expect with
  | some e =>
    if evalExpect e (.num count) then
      { name := "Resource count '" ++ pattern ++ "'", type := .resource, status := .pass,
        message := some ("Found " ++ natDigits count ++ " resources matching pattern '" ++
          pattern ++ "' and met expectations") }
    else
      { name := "Resource count '" ++ pattern ++ "'", type := .resource, status := .fail,
        message := some ("Found " ++ natDigits count ++ " resources matching pattern '" ++
          pattern ++ "' but did not meet expectations: " ++ expectText e) }
  | none =>
    { name := "Resource count '" ++ pattern ++ "'", type := .resource, status := .pass,
      message := some ("Found " ++ natDigits count ++ " resources matching pattern '" ++
        pattern ++ "'") }

/-- Single-resource read check `testResource`. -/
def testResource (b : RunnerBehavior) (uri : String) (config : ResourceTestConfig) :
    TestResult :=
  match b.readResource uri with
  | .ok content =>
    (match config.expect with
     | some e =>
       if evalExpect e content then
         { name := "Resource '" ++ uri ++ "' read", type := .resource, status := .pass,
           message := some "Resource read successfully and met expectations" }
       else
         { name := "Resource '" ++ uri ++ "' read", type := .resource, status := .fail,
           message := some ("Resource read but did not meet expectations: " ++ expectText e) }
     | none =>
       { name := "Resource '" ++ uri ++ "' read", type := .resource, status := .pass,
         message := some "Resource read successfully" })
  | .error e =>
    { name := "Resource '" ++ uri ++ "' read", type := .resource, status := .fail,
      message := some ("Resource read failed: " ++ e), error := some e }

/-- Check for one declared resource pattern inside `testResources`: no match
fails outright; a string expectation containing `count` routes to the count
check with the number of matches; everything else reads the first match. -/
def testResourcePattern (b : RunnerBehavior) (caps : MCPCapabilities)
    (pattern : String) (config : ResourceTestConfig) : TestResult :=
  let matching := (caps.resources.getD []).filter fun r => matchesPattern r.uri pattern
  match matching with
  | [] =>
    { name := "Resource '" ++ pattern ++ "' test", type := .resource, status := .fail,
      message := some ("No resources found matching pattern '" ++ pattern ++ "'") }
  | m :: _ =>
    match config.expect with
    | some (.expr s) =>
      if strIncludes s "count" then testResourceCount pattern matching.length config
      else testResource b m.uri config
    | _ => testResource b m.uri config

/-- Resource phase `testResources`, in declaration order. -/
def testResources (b : RunnerBehavior) (caps : MCPCapabilities) (cfg : MCPTestConfig) :
    List TestResult :=
  match cfg.resources with
  | some block => (entriesOf {} block).map fun e => testResourcePattern b caps e.1 e.2
  | none => []

/-- Single-prompt check `testPrompt` (no `shouldThrow` for prompts: any
invocation error fails). -/
def testPrompt (b : RunnerBehavior) (name : String) (config : PromptTestConfig) : TestResult :=
  match b.getPrompt name (config.args.getD (.obj [])) with
  | .ok result =>
    (match config.expect with
     | some e =>
       if evalExpect e result then
         { name := "Prompt '" ++ name ++ "' execution", type := .prompt, status := .pass,
           message := some "Prompt executed successfully and met expectations" }
       else
         { name := "Prompt '" ++ name ++ "' execution", type := .prompt, status := .fail,
           message := some ("Prompt executed but did not meet expectations: " ++ expectText e) }
     | none =>
       { name := "Prompt '" ++ name ++ "' execution", type := .prompt, status := .pass,
         message := some "Prompt executed successfully" })
  | .error e =>
    { name := "Prompt '" ++ name ++ "' execution", type := .prompt, status := .fail,
      message := some ("Prompt execution failed: " ++ e), error := some e }

/-- Prompt phase `testPrompts`, in declaration order. -/
def testPrompts (b : RunnerBehavior) (cfg : MCPTestConfig) : List TestResult :=
  match cfg.prompts with
  | some block => (entriesOf {} block).map fun e => testPrompt b e.1 e.2
  | none => []

/-- Observable outcome of a whole run: the returned suite, and whether the
`finally` cleanup (disconnect) was reached. -/
structure RunOutput where
  suite : TestSuite
  disconnectAttempted : Bool
deriving DecidableEq, Repr

/-- The `Test Suite` failure record the catch-all of `run` appends when a
phase rethrows. -/
def suiteFailResult (e : String) : TestResult :=
  { name := "Test Suite", type := .connection, status := .fail,
    message := some ("Test suite failed: " ++ e), error := some e }

/-- Tail of `run`: `finally { await cleanup() }` always disconnects (cleanup
errors ignored), and the accumulated results are aggregated and returned
normally. -/
def finishRun (results : List TestResult) : Except String RunOutput :=
  .ok { suite := createTestSuite results 0, disconnectAttempted := true }

/-- Whole-run orchestration `MCPTestRunner.run`. The `Except` layer is the
JS exception channel out of `run`: connection and discovery failures abort
the remaining phases by rethrowing, but the surrounding `try/catch` converts
them into a `Test Suite` result, so `run` itself always returns `.ok`. -/
def run (b : RunnerBehavior) (cfg : MCPTestConfig) : Except String RunOutput :=
  let conn := testConnection b cfg
  match conn.2 with
  | some e => finishRun (conn.1 ++ [suiteFailResult e])
  | none =>
    let disco := getCapabilitiesPhase b
    match disco.2 with
    | .error e => finishRun (conn.1 ++ disco.1 ++ [suiteFailResult e])
    | .ok caps =>
      finishRun (conn.1 ++ disco.1 ++ testCapabilities caps cfg ++ testTools b cfg ++
        testResources b caps cfg ++ testPrompts b cfg)

/-! ## Protocol client discovery (client.ts `MCPTestClient.getCapabilities`) -/

/-- Oracle for the three capability-listing calls of the underlying SDK
client; failures carry the error message. -/
structure ListingBehavior where
  listTools : Except String (List MCPToolInfo)
  listResources : Except String (List MCPResourceInfo)
  listPrompts : Except String (List MCPPromptInfo)

/-- One per-class `try/catch` of `getCapabilities`: a failure whose message
contains `Method not found` degrades to the empty list for that class;
any other failure is rethrown. -/
def tolerateMissing {α : Type} (r : Except String (List α)) : Except String (List α) :=
  match r with
  | .ok l => .ok l
  | .error msg =>
    if strIncludes msg "Method not found" then .ok [] else .error msg

/-- Client discovery `MCPTestClient.getCapabilities`: the three classes are
queried independently (tools, then resources, then prompts), each with the
tolerant per-class handler; an escaping error is wrapped by the outer catch. -/
def getCapabilities (b : ListingBehavior) : Except String MCPCapabilities :=
  match (do
      let tools ← tolerateMissing b.listTools
      let resources ← tolerateMissing b.listResources
      let prompts ← tolerateMissing b.listPrompts
      pure { tools := some tools, resources := some resources,
             prompts := some prompts } : Except String MCPCapabilities) with
  | .ok caps => .ok caps
  | .error e => .error ("Failed to get capabilities: " ++ e)

/-! ## Snapshot store (snapshot.ts `SnapshotManager`) -/

/-- Snapshot metadata (`Snapshot['metadata']`). -/
structure SnapshotMetadata where
  testType : String
  testName : String
  serverCommand : Option String := none

/-- One persisted snapshot record. -/
structure Snapshot where
  name : String
  timestamp : String
  data : JValue
  metadata : Option SnapshotMetadata := none

/-- Lexicographic comparison of key character lists (JS string comparison
used by `Array.prototype.sort` on keys; code points stand in for the
source's UTF-16 code units, which agree on the material the claims touch). -/
def charListLE : List Char → List Char → Bool
  | [], _ => true
  | _ :: _, [] => false
  | a :: as, b :: bs => if a = b then charListLE as bs else decide (a.toNat < b.toNat)

/-- Key ordering of two object members, as a computation. -/
def keyLEb (p q : String × JValue) : Bool := charListLE p.1.data q.1.data

/-- Key ordering used to sort object members by key. -/
def keyLE (p q : String × JValue) : Prop := keyLEb p q = true

instance : DecidableRel keyLE := fun p q => inferInstanceAs (Decidable (keyLEb p q = true))

/-- Sorting of an object's members by key (`Object.keys(data).sort()` and
rebuild; JS object keys are distinct, so sorting the member pairs by key is
the same rebuild). -/
def sortByKey (kvs : List (String × JValue)) : List (String × JValue) :=
  List.insertionSort keyLE kvs

mutual
/-- Normalisation `SnapshotManager.normalizeData`: arrays element-wise in
order, objects rebuilt with recursively normalised values under sorted keys,
scalars unchanged. (The source iterates the sorted keys and normalises each
value; since the sort compares keys only, normalising the member values
first and then sorting yields the identical member list, and keeps the
recursion structural.) -/
def normalizeData : JValue → JValue
  | .arr xs => .arr (normalizeList xs)
  | .obj kvs => .obj (sortByKey (normalizeMembers kvs))
  | x => x

/-- Element-wise normalisation of an array, preserving order. -/
def normalizeList : List JValue → List JValue
  | [] => []
  | x :: xs => normalizeData x :: normalizeList xs

/-- Value-wise normalisation of an object's members, preserving keys. -/
def normalizeMembers : List (String × JValue) → List (String × JValue)
  | [] => []
  | (k, v) :: kvs => (k, normalizeData v) :: normalizeMembers kvs
end

mutual
/-- Structural equality `SnapshotManager.deepEqual`: primitives compare by
value (the source's leading `a === b` fast path), `null`/`undefined` only to
themselves, array-ness must agree, arrays compare positionally, objects by
key-count, key-membership and per-key recursive equality; any other
constructor mix is unequal (the `typeof` guard). (The source reads `a[key]`
for each of `a`'s own keys; since JS object keys are distinct, that is the
member's own value, which keeps the recursion structural.) -/
def deepEqual : JValue → JValue → Bool
  | .null, .null => true
  | .undef, .undef => true
  | .bool x, .bool y => x = y
  | .num x, .num y => x = y
  | .str x, .str y => x = y
  | .arr xs, .arr ys => xs.length = ys.length && deepEqualList xs ys
  | .obj xs, .obj ys => (jkeys xs).length = (jkeys ys).length && deepEqualMembers xs ys
  | _, _ => false

/-- Positional equality of array elements. -/
def deepEqualList : List JValue → List JValue → Bool
  | x :: xs, y :: ys => deepEqual x y && deepEqualList xs ys
  | _, _ => true

/-- Per-key equality over the first object's members: the key must be
present in the other object and the values must compare deep-equal. -/
def deepEqualMembers : List (String × JValue) → List (String × JValue) → Bool
  | [], _ => true
  | kv :: rest, ys =>
    ((jkeys ys).contains kv.1 && deepEqual kv.2 (jlookup ys kv.1)) && deepEqualMembers rest ys
end

/-! ## Snapshot projection (`processSnapshotConfig` and nested-path editing) -/

/-- Path fragmentation for the snapshot property paths: split on the regex
class `[\.\[\]]` and drop empty fragments (`.filter(Boolean)`), so
`"a.b[0]"` becomes `["a", "b", "0"]`. -/
def splitPropPath (cs : List Char) : List (List Char) :=
  (cs.foldr
    (fun c acc =>
      if c = '.' ∨ c = '[' ∨ c = ']' then [] :: acc
      else
        match acc with
        | [] => [[c]]
        | p :: ps => (c :: p) :: ps)
    [[]]).filter fun p => !p.isEmpty

/-- Fragments of a property path as strings. -/
def pathParts (path : String) : List String :=
  (splitPropPath path.data).map fun p => ⟨p⟩

/-- Walk of `SnapshotManager.getNestedProperty`: `null`/`undefined`
intermediates collapse to `undefined`, every other step is a plain property
access. -/
def getNestedProperty (v : JValue) (path : String) : JValue :=
  (pathParts path).foldl
    (fun cur part =>
      match cur with
      | .null => .undef
      | .undef => .undef
      | c => jsProp c part)
    v

/-- The `part in current` membership test of the nested-path walkers (own
keys of an object; indices in range, for an array). -/
def propIn (container : JValue) (part : String) : Bool :=
  match container with
  | .obj kvs => (jkeys kvs).contains part
  | .arr xs =>
    part = "length" ||
      (match canonicalIndex? part.data with
       | some i => i < xs.length
       | none => false)
  | _ => false

/-- Assignment `container[key] = v` as a pure update: objects update an
existing binding in place or append a new one; arrays set in range or pad
with `undefined` holes; assignment onto a primitive is a silent no-op (the
model keeps the container unchanged). -/
def jsSetProp (container : JValue) (key : String) (v : JValue) : JValue :=
  match container with
  | .obj kvs =>
    if (jkeys kvs).contains key then
      .obj (kvs.map fun kv => if kv.1 = key then (key, v) else kv)
    else .obj (kvs ++ [(key, v)])
  | .arr xs =>
    (match canonicalIndex? key.data with
     | some i =>
       if i < xs.length then .arr (xs.set i v)
       else .arr (xs ++ List.replicate (i - xs.length) .undef ++ [v])
     | none => .arr xs)
  | other => other

/-- Walk of `SnapshotManager.setNestedProperty`: intermediate containers are
created on demand — an object, unless the next fragment is numeric
(`isNaN(Number(part))` test), then an array — and the last fragment receives
the value. An empty fragment list sets nothing (the `parts.length > 0`
guard). -/
def setNestedProperty (container : JValue) (parts : List String) (v : JValue) : JValue :=
  match parts with
  | [] => container
  | [last] => jsSetProp container last v
  | part :: next :: rest =>
    let child :=
      if propIn container part then jsProp container part
      else if (strToNumber next).isSome then .arr []
      else .obj []
    jsSetProp container part (setNestedProperty child (next :: rest) v)

/-- Deletion `delete container[key]` as a pure update: object bindings are
removed; array deletion leaves an `undefined` hole; primitives unchanged. -/
def jsDeleteProp (container : JValue) (key : String) : JValue :=
  match container with
  | .obj kvs => .obj (kvs.filter fun kv => !(kv.1 = key))
  | .arr xs =>
    (match canonicalIndex? key.data with
     | some i => if i < xs.length then .arr (xs.set i .undef) else .arr xs
     | none => .arr xs)
  | other => other

/-- Walk of `SnapshotManager.deleteNestedProperty`: stops silently when an
intermediate fragment is absent, otherwise deletes the final fragment. -/
def deleteNestedProperty (container : JValue) (parts : List String) : JValue :=
  match parts with
  | [] => container
  | [last] => jsDeleteProp container last
  | part :: rest =>
    if propIn container part then
      jsSetProp container part (deleteNestedProperty (jsProp container part) rest)
    else container

/-- Projection `SnapshotManager.processSnapshotConfig`: non-objects pass
through; a non-empty `properties` allow-list rebuilds an object holding only
those paths (absent paths copy `undefined`); a non-empty `exclude` list then
deep-deletes its paths (the source's `deepClone` is the identity on pure
values). `properties` first, then `exclude`. -/
def processSnapshotConfig (data : JValue) (config : SnapshotConfig) : JValue :=
  if !(isObjectLike data) then data
  else
    let projected :=
      match config.properties with
      | some props =>
        if props.length > 0 then
          props.foldl
            (fun acc prop => setNestedProperty acc (pathParts prop) (getNestedProperty data prop))
            (.obj [])
        else data
      | none => data
    match config.exclude with
    | some excl =>
      if excl.length > 0 then
        excl.foldl (fun acc prop => deleteNestedProperty acc (pathParts prop)) projected
      else projected
    | none => projected

/-! ## Structural diff (`generateDiff`) and its JSON rendering -/

/-- Lower hex digit. -/
def hexDigit (n : Nat) : Char :=
  if n < 10 then Char.ofNat ('0'.toNat + n) else Char.ofNat ('a'.toNat + (n - 10))

/-- JSON string escaping (`JSON.stringify` on one character). -/
def escapeJsonChar (c : Char) : List Char :=
  if c = '"' then ['\\', '"']
  else if c = '\\' then ['\\', '\\']
  else if c = '\n' then ['\\', 'n']
  else if c = '\r' then ['\\', 'r']
  else if c = '\t' then ['\\', 't']
  else if c = Char.ofNat 8 then ['\\', 'b']
  else if c = Char.ofNat 12 then ['\\', 'f']
  else if c.toNat < 32 then
    ['\\', 'u', '0', '0', hexDigit (c.toNat / 16), hexDigit (c.toNat % 16)]
  else [c]

/-- JSON string literal rendering. -/
def escapeJsonString (s : String) : String :=
  "\"" ++ ⟨s.data.foldr (fun c acc => escapeJsonChar c ++ acc) []⟩ ++ "\""

/-- Indentation prefix of the two-space pretty printer. -/
def indentStr (n : Nat) : String := ⟨List.replicate n ' '⟩

/-- Pretty printer `JSON.stringify(v, null, 2)` at an indentation level:
`undefined` has no rendering (`none`), object members with `undefined`
values are skipped, `undefined` array elements render as `null`. -/
def jsonStringify : Nat → JValue → Option String
  | _, .undef => none
  | _, .null => some "null"
  | _, .bool b => some (if b then "true" else "false")
  | _, .num q => some (ratToString q)
  | _, .str s => some (escapeJsonString s)
  | level, .arr xs =>
    if xs.isEmpty then some "[]"
    else
      some ("[\n" ++
        String.intercalate ",\n"
          (xs.attach.map fun x =>
            indentStr (level + 2) ++ (jsonStringify (level + 2) x.1).getD "null") ++
        "\n" ++ indentStr level ++ "]")
  | level, .obj kvs =>
    let entries := kvs.attach.filterMap fun kv =>
      (jsonStringify (level + 2) kv.1.2).map fun s =>
        indentStr (level + 2) ++ escapeJsonString kv.1.1 ++ ": " ++ s
    if entries.isEmpty then some "\x7b\x7d"
    else
      some ("\x7b\n" ++ String.intercalate ",\n" entries ++ "\n" ++ indentStr level ++ "\x7d")
termination_by level v => sizeOf v
decreasing_by
  · have h1 := List.sizeOf_lt_of_mem x.2
    simp only [JValue.arr.sizeOf_spec]
    omega
  · have h1 := List.sizeOf_lt_of_mem kv.2
    have h2 : sizeOf kv.1.2 < sizeOf kv.1 := by
      obtain ⟨⟨a, b⟩, hx⟩ := kv
      simp only [Prod.mk.sizeOf_spec]
      omega
    simp only [JValue.obj.sizeOf_spec]
    omega

/-- Template-literal rendering `${JSON.stringify(v, null, 2)}` (an
`undefined` stringification interpolates as the text `undefined`). -/
def jsonDisplay (v : JValue) : String := (jsonStringify 0 v).getD "undefined"

/-- JS `typeof` on the model (`typeof null` is `object`). -/
def jsTypeOf : JValue → String
  | .undef => "undefined"
  | .null => "object"
  | .bool _ => "boolean"
  | .num _ => "number"
  | .str _ => "string"
  | .arr _ => "object"
  | .obj _ => "object"

/-- `Object.keys` of a value: member keys of an object, index strings of an
array, nothing otherwise. -/
def keysOfValue : JValue → List String
  | .obj kvs => jkeys kvs
  | .arr xs => (List.range xs.length).map fun i => natDigits i
  | _ => []

/-- Key union `new Set([...Object.keys(expected), ...Object.keys(actual)])`,
in insertion order. -/
def keyUnion (a b : List String) : List String :=
  a ++ b.filter fun k => !a.contains k

/-- Nesting depth: scalars are 0, a container exceeds its deepest child. -/
def jdepth : JValue → Nat
  | .arr xs => 1 + (xs.attach.map fun x => jdepth x.1).foldr max 0
  | .obj kvs => 1 + (kvs.attach.map fun kv => jdepth kv.1.2).foldr max 0
  | _ => 0
termination_by v => sizeOf v
decreasing_by
  · have h1 := List.sizeOf_lt_of_mem x.2
    simp only [JValue.arr.sizeOf_spec]
    omega
  · have h1 := List.sizeOf_lt_of_mem kv.2
    have h2 : sizeOf kv.1.2 < sizeOf kv.1 := by
      obtain ⟨⟨a, b⟩, hx⟩ := kv
      simp only [Prod.mk.sizeOf_spec]
      omega
    simp only [JValue.obj.sizeOf_spec]
    omega

/-- Members of a list bound their `foldr max`. -/
theorem le_foldr_max (l : List Nat) (x : Nat) (h : x ∈ l) : x ≤ l.foldr max 0 := by
  induction l with
  | nil => cases h
  | cons a t ih =>
    rcases List.mem_cons.mp h with rfl | ht
    · exact le_max_left _ _
    · exact le_trans (ih ht) (le_max_right _ _)

/-- Every property read out of a container is strictly shallower than the
container. -/
theorem jdepth_jsProp_lt (v : JValue) (key : String) (h : isObjectLike v = true) :
    jdepth (jsProp v key) < jdepth v := by
  cases v with
  | arr xs =>
    have hd : jdepth (JValue.arr xs) = 1 + (xs.attach.map fun x => jdepth x.1).foldr max 0 := by
      rw [jdepth]
    rw [hd]
    rw [jsProp]
    split
    · simp [jdepth]
    · split
      · rename_i i _
        by_cases hi : i < xs.length
        · have hmem : xs.getD i .undef ∈ xs := by
            rw [List.getD_eq_getElem?_getD]
            rw [List.getElem?_eq_getElem hi]
            exact List.getElem_mem _
          have : jdepth (xs.getD i .undef) ∈ xs.attach.map fun x => jdepth x.1 :=
            List.mem_map.mpr ⟨⟨_, hmem⟩, List.mem_attach _ _, rfl⟩
          have := le_foldr_max _ _ this
          omega
        · have : xs.getD i .undef = .undef := by
            rw [List.getD_eq_getElem?_getD]
            rw [List.getElem?_eq_none (Nat.le_of_not_lt hi)]
            rfl
          rw [this]
          simp [jdepth]
      · simp [jdepth]
  | obj kvs =>
    have hd : jdepth (JValue.obj kvs) = 1 + (kvs.attach.map fun kv => jdepth kv.1.2).foldr max 0 := by
      rw [jdepth]
    rw [hd]
    rw [jsProp, jlookup]
    cases hfind : kvs.find? (fun kv => kv.1 = key) with
    | none => simp [jdepth]
    | some kv =>
      have hmem := List.mem_of_find?_eq_some hfind
      have : jdepth kv.2 ∈ kvs.attach.map fun kv => jdepth kv.1.2 :=
        List.mem_map.mpr ⟨⟨_, hmem⟩, List.mem_attach _ _, rfl⟩
      have := le_foldr_max _ _ this
      show jdepth kv.2 < _
      omega
  | undef => simp [isObjectLike] at h
  | null => simp [isObjectLike] at h
  | bool b => simp [isObjectLike] at h
  | num q => simp [isObjectLike] at h
  | str s => simp [isObjectLike] at h

/-- Values of `typeof` result `object` that are not `null` are containers. -/
theorem isObjectLike_of_typeOf (v : JValue) (h1 : jsTypeOf v = "object")
    (h2 : isNullV v = false) : isObjectLike v = true := by
  cases v <;> simp_all [jsTypeOf, isNullV, isObjectLike]

/-- Recursive walk `SnapshotManager.generateDiffRecursive`: equal subtrees
contribute nothing; a one-sided presence yields a single `+`/`-` line; a
`typeof` mismatch yields both lines; two non-null objects recurse over the
union of their keys with dotted paths; remaining unequal leaves yield both
lines (the source guards them with `expected !== actual`, which always holds
once the leading `deepEqual` test has failed on non-objects). -/
def generateDiffRecursive (expected actual : JValue) (path : String) : List String :=
  if deepEqual expected actual then []
  else if isUndefV expected = true ∧ isUndefV actual = false then
    ["+ " ++ path ++ ": " ++ jsonDisplay actual]
  else if isUndefV expected = false ∧ isUndefV actual = true then
    ["- " ++ path ++ ": " ++ jsonDisplay expected]
  else if !(jsTypeOf expected = jsTypeOf actual) then
    ["- " ++ path ++ ": " ++ jsonDisplay expected,
     "+ " ++ path ++ ": " ++ jsonDisplay actual]
  else if h : jsTypeOf expected = "object" ∧ isNullV expected = false ∧ isNullV actual = false then
    (keyUnion (keysOfValue expected) (keysOfValue actual)).attach.flatMap fun key =>
      generateDiffRecursive (jsProp expected key.1) (jsProp actual key.1)
        (if path = "" then key.1 else path ++ "." ++ key.1)
  else
    ["- " ++ path ++ ": " ++ jsonDisplay expected,
     "+ " ++ path ++ ": " ++ jsonDisplay actual]
termination_by jdepth expected
decreasing_by
  exact jdepth_jsProp_lt expected key.1 (isObjectLike_of_typeOf expected h.1 h.2.1)

/-- Diff entry point `SnapshotManager.generateDiff(expected, actual)`. -/
def generateDiff (expected actual : JValue) : String :=
  String.intercalate "\n" (generateDiffRecursive expected actual "")

/-! ## Snapshot manager state and comparison -/

/-- Pure state of one `SnapshotManager`: the update-mode flag, the in-memory
name-keyed snapshot map, a log of file writes (`saveSnapshot` calls), and the
ambient clock reading used for `new Date().toISOString()`. -/
structure SnapshotManagerState where
  updateSnapshots : Bool
  snapshots : List (String × Snapshot)
  savedFiles : List Snapshot := []
  now : String := ""

/-- Map lookup `this.snapshots.get(name)`. -/
def lookupSnap (st : SnapshotManagerState) (name : String) : Option Snapshot :=
  (st.snapshots.find? fun e => e.1 = name).map (·.2)

/-- Map update `this.snapshots.set(name, snap)`. -/
def setSnap (st : SnapshotManagerState) (name : String) (snap : Snapshot) :
    SnapshotManagerState :=
  { st with snapshots :=
      if (st.snapshots.map (·.1)).contains name then
        st.snapshots.map fun e => if e.1 = name then (name, snap) else e
      else st.snapshots ++ [(name, snap)] }

/-- Capture `SnapshotManager.captureSnapshot`: builds the record with
normalised data and the current timestamp, but persists it (file write and
map update) only in update mode. -/
def captureSnapshot (st : SnapshotManagerState) (name : String) (data : JValue)
    (metadata : Option SnapshotMetadata) : SnapshotManagerState :=
  let snapshot : Snapshot :=
    { name := name, timestamp := st.now, data := normalizeData data, metadata := metadata }
  if st.updateSnapshots then
    let st2 := { st with savedFiles := st.savedFiles ++ [snapshot] }
    setSnap st2 name snapshot
  else st

/-- Result record of a comparison (`{ match, diff?, existingSnapshot? }`;
the `match` field is renamed `matched`, `match` being reserved in Lean). -/
structure CompareResult where
  matched : Bool
  diff : Option String := none
  existingSnapshot : Option Snapshot := none

/-- The `normalized`/`processedData` pipeline of `compareSnapshot`:
normalise the actual data, then apply the optional projection config. -/
def projectedActual (actualData : JValue) (config : Option SnapshotConfig) : JValue :=
  match config with
  | some c => processSnapshotConfig (normalizeData actualData) c
  | none => normalizeData actualData

/-- Projection applied to the stored snapshot's (already normalised) data
inside `compareSnapshot`. -/
def projectedStored (stored : Snapshot) (config : Option SnapshotConfig) : JValue :=
  match config with
  | some c => processSnapshotConfig stored.data c
  | none => stored.data

/-- Comparison `SnapshotManager.compareSnapshot`: normalise and project the
actual data; a missing stored snapshot is captured (update mode) or reported
missing; an existing one is projected the same way and deep-compared, a
mismatch being overwritten (update mode) or reported with a structural
diff. -/
def compareSnapshot (st : SnapshotManagerState) (name : String) (actualData : JValue)
    (config : Option SnapshotConfig) : CompareResult × SnapshotManagerState :=
  let processedData := projectedActual actualData config
  match lookupSnap st name with
  | none =>
    if st.updateSnapshots then
      ({ matched := true }, captureSnapshot st name processedData none)
    else
      ({ matched := false,
         diff := some ("Snapshot \"" ++ name ++
           "\" does not exist. Run with UPDATE_SNAPSHOTS=true to create it.") }, st)
  | some existingSnapshot =>
    let processedExisting := projectedStored existingSnapshot config
    if deepEqual processedData processedExisting then
      ({ matched := true, existingSnapshot := some existingSnapshot }, st)
    else if st.updateSnapshots then
      ({ matched := true }, captureSnapshot st name processedData existingSnapshot.metadata)
    else
      ({ matched := false, diff := some (generateDiff processedExisting processedData),
         existingSnapshot := some existingSnapshot }, st)

/-! ## Shared facts -/

/-- Status counts of a result list partition its length. -/
theorem count_partition (rs : List TestResult) :
    (rs.filter fun r => r.status = .pass).length +
    (rs.filter fun r => r.status = .fail).length +
    (rs.filter fun r => r.status = .skip).length = rs.length := by
  induction rs with
  | nil => simp
  | cons r t ih =>
    cases hs : r.status <;> simp [List.filter_cons, hs] <;> omega

/-- Every suite assembled by `createTestSuite` satisfies the counting
invariant. -/
theorem createTestSuite_counts (rs : List TestResult) (d : Nat) :
    (createTestSuite rs d).total =
      (createTestSuite rs d).passed + (createTestSuite rs d).failed +
        (createTestSuite rs d).skipped ∧
    (createTestSuite rs d).total = (createTestSuite rs d).results.length := by
  refine ⟨?_, rfl⟩
  show rs.length = _
  exact (count_partition rs).symm

/-- A finished run hands back exactly the suite of its accumulated results. -/
theorem run_eq_finish (b : RunnerBehavior) (cfg : MCPTestConfig) :
    ∃ rs : List TestResult, run b cfg = finishRun rs := by
  simp only [run]
  split
  · exact ⟨_, rfl⟩
  · split
    · exact ⟨_, rfl⟩
    · exact ⟨_, rfl⟩

/-- A sample all-succeeding client behaviour for witnesses. -/
def sampleBehavior : RunnerBehavior where
  connect := fun _ => .ok ()
  ping := true
  capabilities := .ok
    { tools := some [{ name := "add" }], resources := some [], prompts := some [] }
  callTool := fun _ _ => .ok (.obj [("content", .arr [.obj [("type", .str "text"), ("text", .str "8")]])])
  readResource := fun _ => .ok (.str "data")
  getPrompt := fun _ _ => .ok (.obj [])

/-- A sample declaration for witnesses. -/
def sampleCfg : MCPTestConfig :=
  { tools := some (.table [("add", { args := some (.obj [("a", .num 5), ("b", .num 3)]),
                                     expect := some (.expr "content[0].text === '8'") })]) }

/-! ## C1 - suite counting invariant -/

/-- C1: for every completed run, the returned `TestSuite` satisfies
`total = passed + failed + skipped` and `total = results.length` (the counts
being filters of the same accumulated result list). -/
theorem C1_suite_counting (b : RunnerBehavior) (cfg : MCPTestConfig) (out : RunOutput)
    (h : run b cfg = .ok out) :
    out.suite.total = out.suite.passed + out.suite.failed + out.suite.skipped ∧
    out.suite.total = out.suite.results.length := by
  obtain ⟨rs, hrs⟩ := run_eq_finish b cfg
  rw [hrs, finishRun] at h
  injection h with h
  subst h
  exact createTestSuite_counts rs 0

/-- Output of the sample run, for the C1 witness. -/
def sampleOut : RunOutput :=
  (run sampleBehavior sampleCfg).toOption.getD
    { suite := createTestSuite [] 0, disconnectAttempted := true }

/-- Witness for C1 at a concrete succeeding run. -/
theorem C1_suite_counting_witness :
    run sampleBehavior sampleCfg = Except.ok sampleOut ∧
    (sampleOut.suite.total =
        sampleOut.suite.passed + sampleOut.suite.failed + sampleOut.suite.skipped ∧
      sampleOut.suite.total = sampleOut.suite.results.length) :=
  ⟨rfl, C1_suite_counting sampleBehavior sampleCfg sampleOut rfl⟩

/-! ## C4 - connection failure semantics -/

/-- C4 (amended): when connecting fails, no later phase runs (the returned
results are exactly the failed connection record and the catch-all suite
record, independent of every other oracle field), disconnect is still
attempted, and the connection error is recorded inside the returned suite —
while the run itself returns normally: no exception escapes `run` for any
behaviour, connection failure included. -/
theorem C4_connection_failure :
    (∀ (b : RunnerBehavior) (cfg : MCPTestConfig), (run b cfg).isOk = true) ∧
    (∀ (b : RunnerBehavior) (cfg : MCPTestConfig) (e : String),
      b.connect (cfg.timeout.getD 30000) = .error e →
      run b cfg = .ok
        { suite := createTestSuite
            [{ name := "Server Connection", type := .connection, status := .fail,
               message := some ("Failed to connect to server: " ++ e), error := some e },
             suiteFailResult e] 0,
          disconnectAttempted := true }) := by
  constructor
  · intro b cfg
    obtain ⟨rs, hrs⟩ := run_eq_finish b cfg
    rw [hrs, finishRun]
    rfl
  · intro b cfg e he
    simp only [run, testConnection, he]
    rfl

/-- A behaviour whose connection attempt always fails. -/
def failingBehavior : RunnerBehavior where
  connect := fun _ => .error "spawn failed"
  ping := false
  capabilities := .error "not connected"
  callTool := fun _ _ => .error "not connected"
  readResource := fun _ => .error "not connected"
  getPrompt := fun _ _ => .error "not connected"

/-- Counterexample for C4 as stated: on a failing connection the run's
caller receives a normally returned suite (`.ok`), not a thrown/returned
error alongside it — the connection error lives only inside the suite's
result records. -/
theorem C4_counterexample : (run failingBehavior {}).isOk = true := rfl

/-- Witness for C4 at the concrete failing behaviour. -/
theorem C4_connection_failure_witness :
    run failingBehavior {} = .ok
      { suite := createTestSuite
          [{ name := "Server Connection", type := .connection, status := .fail,
             message := some ("Failed to connect to server: " ++ "spawn failed"),
             error := some "spawn failed" },
           suiteFailResult "spawn failed"] 0,
        disconnectAttempted := true } :=
  C4_connection_failure.2 failingBehavior {} "spawn failed" rfl

/-! ## C2 - shouldThrow semantics -/

/-- C2 (amended): when the invocation raises, `shouldThrow` decides the
status (expected failure passes, otherwise fails); when the invocation
succeeds, `shouldThrow` is never consulted — the status is `pass` unless a
declared expectation evaluates false. -/
theorem C2_shouldThrow_semantics :
    (∀ (b : RunnerBehavior) (name : String) (config : ToolTestConfig) (e : String),
      b.callTool name (config.args.getD (.obj [])) = .error e →
      (testTool b name config).status =
        (if config.shouldThrow.getD false then TestStatus.pass else TestStatus.fail)) ∧
    (∀ (b : RunnerBehavior) (name : String) (config : ToolTestConfig) (r : JValue),
      b.callTool name (config.args.getD (.obj [])) = .ok r →
      (testTool b name config).status =
        (match config.expect with
         | none => TestStatus.pass
         | some ex => if evalExpect ex r then TestStatus.pass else TestStatus.fail)) := by
  constructor
  · intro b name config e he
    simp only [testTool, he]
    split <;> rfl
  · intro b name config r hr
    simp only [testTool, hr]
    cases config.expect with
    | none => rfl
    | some ex => simp only []; split <;> rfl

/-- Counterexample for C2 as stated: a successful invocation of a tool
declared `shouldThrow` is recorded `pass` (with no expectation, the success
branch passes unconditionally), not `fail`. -/
theorem C2_counterexample :
    (testTool sampleBehavior "boom" { shouldThrow := some true }).status = TestStatus.pass := rfl

/-- A behaviour whose tool invocations always raise. -/
def throwingBehavior : RunnerBehavior where
  connect := fun _ => .ok ()
  ping := false
  capabilities := .ok {}
  callTool := fun _ _ => .error "invalid input"
  readResource := fun _ => .error "invalid input"
  getPrompt := fun _ _ => .error "invalid input"

/-- Witness for C2 at concrete throwing and succeeding invocations. -/
theorem C2_shouldThrow_semantics_witness :
    (testTool throwingBehavior "add" { shouldThrow := some true }).status =
      (if (({ shouldThrow := some true } : ToolTestConfig).shouldThrow).getD false
       then TestStatus.pass else TestStatus.fail) ∧
    (testTool sampleBehavior "add" {}).status =
      (match ({} : ToolTestConfig).expect with
       | none => TestStatus.pass
       | some ex =>
         if evalExpect ex (.obj [("content", .arr [.obj [("type", .str "text"), ("text", .str "8")]])])
         then TestStatus.pass else TestStatus.fail) :=
  ⟨C2_shouldThrow_semantics.1 throwingBehavior "add" { shouldThrow := some true } "invalid input" rfl,
   C2_shouldThrow_semantics.2 sampleBehavior "add" {} _ rfl⟩

/-! ## C3 - filter/skip are never applied -/

/-- A behaviour advertising exactly the tool `getWeather`, with succeeding
invocations. -/
def c3Behavior : RunnerBehavior where
  connect := fun _ => .ok ()
  ping := false
  capabilities := .ok { tools := some [{ name := "getWeather" }] }
  callTool := fun _ _ => .ok (.obj [("content", .arr [.obj [("type", .str "text"), ("text", .str "sunny")]])])
  readResource := fun _ => .error "none"
  getPrompt := fun _ _ => .error "none"

/-- The declaration of the spec's filter-precedence scenario: one tool
`getWeather`, `filter = "get*"`, `skip = "weather"`. -/
def c3Cfg : MCPTestConfig :=
  { tools := some (.names ["getWeather"]), filter := some "get*", skip := some "weather" }

/-- C3 at the claim's own input: the runner executes `getWeather` and
records it `pass`; nothing in the whole run is recorded `skip` — the
`filter`/`skip` declaration fields are dead in the runner. -/
theorem C3_filter_skip_ignored :
    (run c3Behavior c3Cfg).map (fun o => o.suite.results.map fun r => (r.name, r.status)) =
      .ok [("Server Connection", TestStatus.pass),
           ("Capability Discovery", TestStatus.pass),
           ("Tool 'getWeather' exists", TestStatus.pass),
           ("Tool 'getWeather' execution", TestStatus.pass)] ∧
    (run c3Behavior c3Cfg).map (fun o => o.suite.skipped) = .ok 0 := by
  constructor <;> rfl

/-! ## C8 - count expectations are evaluated against 0 -/

/-- Six advertised resources matching `doc*`. -/
def c8Caps : MCPCapabilities :=
  { resources := some [{ uri := "doc1" }, { uri := "doc2" }, { uri := "doc3" },
                       { uri := "doc4" }, { uri := "doc5" }, { uri := "doc6" }] }

/-- A resource declaration with the claim's expectation `count > 5`. -/
def c8Cfg : MCPTestConfig :=
  { resources := some (.table [("doc*", { expect := some (.expr "count > 5") })]) }

/-- C8 at the claim's own input: six URIs match `doc*` and the expectation
is `count > 5`, yet the check is recorded `fail` — the evaluator receives
the match count 6 but computes `actualCount = 0` for any non-array value,
so `count >`/`>=`/`==` expectations can never pass. -/
theorem C8_count_evaluated_against_zero :
    testResources c3Behavior c8Caps c8Cfg =
      [{ name := "Resource count 'doc*'", type := .resource, status := .fail,
         message := some "Found 6 resources matching pattern 'doc*' but did not meet expectations: count > 5" }] ∧
    evaluateExpectation (.num 6) "count > 5" = false := by
  constructor <;> rfl

/-! ## C9 - conjunctions containing comparisons are never split -/

/-- The claim's value `a = (x:1, y:2)`. -/
def c9Value : JValue := .obj [("a", .obj [("x", .num 1), ("y", .num 2)])]

/-- C9 at the claim's own input: each conjunct of
`a.x === 1 && a.y === 2` evaluates true on its own, yet the conjunction
evaluates false — the comparison pattern is matched before the `&&` split,
so the whole string parses as `a.x === "1 && a.y === 2"`. -/
theorem C9_conjunction_not_split :
    evaluateExpectation c9Value "a.x === 1" = true ∧
    evaluateExpectation c9Value "a.y === 2" = true ∧
    evaluateExpectation c9Value "a.x === 1 && a.y === 2" = false := by
  refine ⟨?_, ?_, ?_⟩ <;>
    (unfold evaluateExpectation evaluatePropertyExpectation; decide)

/-! ## C10 - totality of the expectation evaluator -/

/-- C10: the evaluator is a total Lean function by construction (mirroring
the source's all-total helpers under `try/catch`), and an expression which
matches none of the recognised forms — not the literal `exists`, no dot or
bracket, no `length`/`count` comparison match, no `contains:` prefix —
evaluates to `false` for every value, failing the test instead of crashing
the run. -/
theorem C10_unrecognized_evaluates_false (v : JValue) (e : String)
    (h1 : e ≠ "exists")
    (h2 : strIncludesChar e '.' = false)
    (h3 : strIncludesChar e '[' = false)
    (h4 : matchKeywordCmp "length".data e.data = none)
    (h5 : matchKeywordCmp "count".data e.data = none)
    (h6 : strStartsWith e "contains:" = false) :
    evaluateExpectation v e = false := by
  rw [evaluateExpectation, if_neg h1, h2, h3]
  simp only [Bool.or_self, Bool.false_eq_true, if_false]
  cases hlen : strIncludes e "length" <;> cases hcnt : strIncludes e "count" <;>
    simp [h4, h5, h6]

/-- Witness for C10 at the unrecognised expression `foobar`. -/
theorem C10_unrecognized_evaluates_false_witness :
    ("foobar" ≠ "exists") ∧ evaluateExpectation (.num 0) "foobar" = false :=
  ⟨by decide,
   C10_unrecognized_evaluates_false (.num 0) "foobar" (by decide) rfl rfl rfl rfl rfl⟩

/-! ## C5 - independent, tolerant capability discovery -/

/-- Classification of a listing outcome the discovery tolerates: success, or
a failure whose message marks the capability class as unimplemented. -/
def mnfTolerable {α : Type} : Except String (List α) → Bool
  | .ok _ => true
  | .error m => strIncludes m "Method not found"

/-- The list a tolerated outcome contributes: the listing on success, empty
on a tolerated failure. -/
def okListOf {α : Type} : Except String (List α) → List α
  | .ok l => l
  | .error _ => []

/-- A tolerated listing resolves to its contributed list. -/
theorem tolerateMissing_of_tolerable {α : Type} (r : Except String (List α))
    (h : mnfTolerable r = true) : tolerateMissing r = .ok (okListOf r) := by
  cases r with
  | ok l => rfl
  | error m =>
    simp only [mnfTolerable] at h
    simp [tolerateMissing, okListOf, h]

/-- An intolerable failure propagates unchanged. -/
theorem tolerateMissing_of_error {α : Type} (m : String)
    (r : Except String (List α)) (hr : r = .error m)
    (h : strIncludes m "Method not found" = false) : tolerateMissing r = .error m := by
  subst hr
  simp [tolerateMissing, h]

/-- C5: the three capability classes are queried independently — when every
failing class reports `Method not found`, discovery succeeds with exactly
those classes degraded to `[]` — while a listing failure of any other kind
(in whichever class it strikes first) aborts discovery with the wrapped
error. -/
theorem C5_partial_capability_tolerance :
    (∀ b : ListingBehavior,
      mnfTolerable b.listTools = true → mnfTolerable b.listResources = true →
      mnfTolerable b.listPrompts = true →
      getCapabilities b = .ok
        { tools := some (okListOf b.listTools),
          resources := some (okListOf b.listResources),
          prompts := some (okListOf b.listPrompts) }) ∧
    (∀ (b : ListingBehavior) (m : String),
      b.listTools = .error m → strIncludes m "Method not found" = false →
      getCapabilities b = .error ("Failed to get capabilities: " ++ m)) ∧
    (∀ (b : ListingBehavior) (m : String),
      mnfTolerable b.listTools = true →
      b.listResources = .error m → strIncludes m "Method not found" = false →
      getCapabilities b = .error ("Failed to get capabilities: " ++ m)) ∧
    (∀ (b : ListingBehavior) (m : String),
      mnfTolerable b.listTools = true → mnfTolerable b.listResources = true →
      b.listPrompts = .error m → strIncludes m "Method not found" = false →
      getCapabilities b = .error ("Failed to get capabilities: " ++ m)) := by
  refine ⟨?_, ?_, ?_, ?_⟩
  · intro b h1 h2 h3
    rw [getCapabilities, tolerateMissing_of_tolerable _ h1,
      tolerateMissing_of_tolerable _ h2, tolerateMissing_of_tolerable _ h3]
    rfl
  · intro b m hr h
    rw [getCapabilities, tolerateMissing_of_error m _ hr h]
    rfl
  · intro b m h1 hr h
    rw [getCapabilities, tolerateMissing_of_tolerable _ h1,
      tolerateMissing_of_error m _ hr h]
    rfl
  · intro b m h1 h2 hr h
    rw [getCapabilities, tolerateMissing_of_tolerable _ h1,
      tolerateMissing_of_tolerable _ h2, tolerateMissing_of_error m _ hr h]
    rfl

/-- A server exposing only tools: the other two listings fail with the
`Method not found` signal. -/
def toolsOnlyListing : ListingBehavior where
  listTools := .ok [{ name := "add" }]
  listResources := .error "MCP error -32601: Method not found"
  listPrompts := .error "MCP error -32601: Method not found"

/-- A listing whose resources call fails with a genuine transport error. -/
def brokenResourcesListing : ListingBehavior where
  listTools := .ok [{ name := "add" }]
  listResources := .error "Connection closed"
  listPrompts := .ok []

/-- Witness for C5: a tools-only server discovers with empty resource and
prompt classes; a genuine resource-listing failure aborts discovery. -/
theorem C5_partial_capability_tolerance_witness :
    getCapabilities toolsOnlyListing = .ok
      { tools := some [{ name := "add" }], resources := some [], prompts := some [] } ∧
    getCapabilities brokenResourcesListing =
      .error ("Failed to get capabilities: " ++ "Connection closed") :=
  ⟨C5_partial_capability_tolerance.1 toolsOnlyListing rfl rfl rfl,
   C5_partial_capability_tolerance.2.2.1 brokenResourcesListing "Connection closed" rfl rfl rfl⟩

/-! ## C6 - snapshot comparison semantics -/

/-- C6: `compareSnapshot` reports a match exactly when update mode is on or
a stored snapshot exists whose projected data deep-equals the
normalised-and-projected actual data; with update mode off, a missing
snapshot reports a mismatch with the explanatory message, unequal data
reports a mismatch carrying the structural diff, and the store (snapshot
map and written files alike) is left untouched — a snapshot file is written
only in update mode. -/
theorem C6_compare_snapshot_semantics (st : SnapshotManagerState) (name : String)
    (data : JValue) (config : Option SnapshotConfig) :
    ((compareSnapshot st name data config).1.matched =
      (st.updateSnapshots ||
        (match lookupSnap st name with
         | none => false
         | some ex => deepEqual (projectedActual data config) (projectedStored ex config)))) ∧
    (st.updateSnapshots = false → lookupSnap st name = none →
      (compareSnapshot st name data config).1.matched = false ∧
      (compareSnapshot st name data config).1.diff =
        some ("Snapshot \"" ++ name ++
          "\" does not exist. Run with UPDATE_SNAPSHOTS=true to create it.")) ∧
    (∀ ex : Snapshot, st.updateSnapshots = false → lookupSnap st name = some ex →
      deepEqual (projectedActual data config) (projectedStored ex config) = false →
      (compareSnapshot st name data config).1.matched = false ∧
      (compareSnapshot st name data config).1.diff =
        some (generateDiff (projectedStored ex config) (projectedActual data config))) ∧
    (st.updateSnapshots = false → (compareSnapshot st name data config).2 = st) := by
  refine ⟨?_, ?_, ?_, ?_⟩
  · simp only [compareSnapshot]
    cases hl : lookupSnap st name with
    | none =>
      cases hu : st.updateSnapshots <;> simp
    | some ex =>
      cases hd : deepEqual (projectedActual data config) (projectedStored ex config) with
      | true => simp [hd]
      | false => cases hu : st.updateSnapshots <;> simp [hd]
  · intro hu hl
    simp [compareSnapshot, hl, hu]
  · intro ex hu hl hd
    simp [compareSnapshot, hl, hu, hd]
  · intro hu
    simp only [compareSnapshot]
    cases hl : lookupSnap st name with
    | none => simp [hu]
    | some ex =>
      cases hd : deepEqual (projectedActual data config) (projectedStored ex config) <;>
        simp [hu, hd]

/-! ## C7 - order-independent normalisation -/

/-- Characters with equal code points are equal. -/
theorem char_toNat_inj (x y : Char) (h : x.toNat = y.toNat) : x = y := by
  apply Char.ext
  apply UInt32.ext
  exact h

/-- Strict lexicographic comparison of key character lists. -/
def charListLT : List Char → List Char → Bool
  | [], [] => false
  | [], _ :: _ => true
  | _ :: _, [] => false
  | a :: as, b :: bs => if a = b then charListLT as bs else decide (a.toNat < b.toNat)

/-- Strict key ordering of two object members. -/
def keyLT (p q : String × JValue) : Prop := charListLT p.1.data q.1.data = true

/-- Lexicographic `≤` is total. -/
theorem charListLE_total (a : List Char) : ∀ b, charListLE a b = true ∨ charListLE b a = true := by
  induction a with
  | nil => intro b; left; rfl
  | cons x xs ih =>
    intro b
    cases b with
    | nil => right; rfl
    | cons y ys =>
      by_cases hxy : x = y
      · subst hxy
        simp only [charListLE, if_pos rfl]
        exact ih ys
      · have hyx : ¬(y = x) := fun h => hxy h.symm
        simp only [charListLE, if_neg hxy, if_neg hyx, decide_eq_true_eq]
        have : x.toNat ≠ y.toNat := fun hn => hxy (char_toNat_inj x y hn)
        omega

/-- Lexicographic `≤` is transitive. -/
theorem charListLE_trans (a : List Char) :
    ∀ b c, charListLE a b = true → charListLE b c = true → charListLE a c = true := by
  induction a with
  | nil => intro b c _ _; rfl
  | cons x xs ih =>
    intro b c hab hbc
    cases b with
    | nil => simp [charListLE] at hab
    | cons y ys =>
      cases c with
      | nil => simp [charListLE] at hbc
      | cons z zs =>
        by_cases hxy : x = y <;> by_cases hyz : y = z
        · subst hxy; subst hyz
          simp only [charListLE, if_pos rfl] at *
          exact ih ys zs hab hbc
        · subst hxy
          simp only [charListLE, if_pos rfl, if_neg hyz] at *
          exact hbc
        · subst hyz
          simp only [charListLE, if_pos rfl, if_neg hxy] at *
          exact hab
        · simp only [charListLE, if_neg hxy, if_neg hyz, decide_eq_true_eq] at hab hbc
          by_cases hxz : x = z
          · subst hxz
            have : y.toNat ≠ x.toNat := fun h => hxy (char_toNat_inj y x h).symm
            omega
          · simp only [charListLE, if_neg hxz, decide_eq_true_eq]
            omega

/-- Lexicographic `<` is asymmetric. -/
theorem charListLT_asymm (a : List Char) :
    ∀ b, charListLT a b = true → charListLT b a = true → False := by
  induction a with
  | nil =>
    intro b h1 h2
    cases b with
    | nil => simp [charListLT] at h1
    | cons y ys => simp [charListLT] at h2
  | cons x xs ih =>
    intro b h1 h2
    cases b with
    | nil => simp [charListLT] at h1
    | cons y ys =>
      by_cases hxy : x = y
      · subst hxy
        simp only [charListLT, if_pos rfl] at h1 h2
        exact ih ys h1 h2
      · have hyx : ¬(y = x) := fun h => hxy h.symm
        simp only [charListLT, if_neg hxy, if_neg hyx, decide_eq_true_eq] at h1 h2
        omega

/-- A non-strict key comparison between members with distinct keys is
strict. -/
theorem charListLT_of_le_ne (a : List Char) :
    ∀ b, charListLE a b = true → a ≠ b → charListLT a b = true := by
  induction a with
  | nil =>
    intro b _ hne
    cases b with
    | nil => exact absurd rfl hne
    | cons y ys => rfl
  | cons x xs ih =>
    intro b hle hne
    cases b with
    | nil => simp [charListLE] at hle
    | cons y ys =>
      by_cases hxy : x = y
      · subst hxy
        simp only [charListLE, if_pos rfl] at hle
        simp only [charListLT, if_pos rfl]
        exact ih ys hle (fun h => hne (by rw [h]))
      · simp only [charListLE, if_neg hxy] at hle
        simp only [charListLT, if_neg hxy]
        exact hle

instance : IsTotal (String × JValue) keyLE :=
  ⟨fun p q => charListLE_total p.1.data q.1.data⟩

instance : IsTrans (String × JValue) keyLE :=
  ⟨fun p q r => charListLE_trans p.1.data q.1.data r.1.data⟩

instance : IsAntisymm (String × JValue) keyLT :=
  ⟨fun p q h1 h2 => (charListLT_asymm p.1.data q.1.data h1 h2).elim⟩

/-- Sorting two member lists that are permutations of each other with
pairwise-distinct keys yields the same list. -/
theorem sortByKey_eq_of_perm (l1 l2 : List (String × JValue)) (hperm : l1.Perm l2)
    (hnodup : (l1.map Prod.fst).Nodup) : sortByKey l1 = sortByKey l2 := by
  have hpair1 : l1.Pairwise (fun p q => p.1 ≠ q.1) := List.pairwise_map.mp hnodup
  have hpair2 : l2.Pairwise (fun p q => p.1 ≠ q.1) :=
    hpair1.perm hperm (fun h => Ne.symm h)
  apply List.eq_of_perm_of_sorted (r := keyLT)
  · exact (List.perm_insertionSort keyLE l1).trans
      (hperm.trans (List.perm_insertionSort keyLE l2).symm)
  all_goals {
    first
    | (have hs := List.sorted_insertionSort keyLE l1
       have hp : (sortByKey l1).Pairwise (fun p q => p.1 ≠ q.1) :=
         hpair1.perm (List.perm_insertionSort keyLE l1).symm (fun h => Ne.symm h)
       exact (hs.and hp).imp fun hx => charListLT_of_le_ne _ _ hx.1
         (fun hdata => hx.2 (String.ext hdata)))
    | (have hs := List.sorted_insertionSort keyLE l2
       have hp : (sortByKey l2).Pairwise (fun p q => p.1 ≠ q.1) :=
         hpair2.perm (List.perm_insertionSort keyLE l2).symm (fun h => Ne.symm h)
       exact (hs.and hp).imp fun hx => charListLT_of_le_ne _ _ hx.1
         (fun hdata => hx.2 (String.ext hdata)))
  }

/-- Distinctness check on a key list. -/
def keysNodup : List String → Bool
  | [] => true
  | k :: ks => !(ks.contains k) && keysNodup ks

mutual
/-- JS-representability of a value in the model: every object node has
pairwise-distinct keys (guaranteed for any value produced by a JS runtime;
the inductive `JValue` is wider). -/
def jwf : JValue → Bool
  | .arr xs => jwfList xs
  | .obj kvs => keysNodup (jkeys kvs) && jwfMembers kvs
  | _ => true

/-- Well-formedness of array elements. -/
def jwfList : List JValue → Bool
  | [] => true
  | x :: xs => jwf x && jwfList xs

/-- Well-formedness of object member values. -/
def jwfMembers : List (String × JValue) → Bool
  | [] => true
  | kv :: rest => jwf kv.2 && jwfMembers rest
end

/-- Lookup of a member's own key in a duplicate-free member list returns
that member's value. -/
theorem jlookup_self (kvs : List (String × JValue)) (hnodup : keysNodup (jkeys kvs) = true) :
    ∀ kv ∈ kvs, jlookup kvs kv.1 = kv.2 := by
  induction kvs with
  | nil => intro kv h; cases h
  | cons hd rest ih =>
    intro kv hkv
    simp only [jkeys, List.map_cons, keysNodup, Bool.and_eq_true] at hnodup
    rcases List.mem_cons.mp hkv with rfl | hmem
    · simp [jlookup]
    · have hne : hd.1 ≠ kv.1 := by
        intro he
        have hmemk : kv.1 ∈ rest.map (·.1) := List.mem_map_of_mem (·.1) hmem
        have hc := hnodup.1
        rw [he, Bool.not_eq_true'] at hc
        have h2 := List.elem_eq_true_of_mem hmemk
        rw [show (rest.map (·.1)).contains kv.1 = (rest.map (·.1)).elem kv.1 from rfl, h2] at hc
        cases hc
      simp only [jlookup, List.find?]
      rw [show (decide (hd.1 = kv.1)) = false by simp [hne]]
      have := ih hnodup.2 kv hmem
      simpa [jlookup] using this

mutual
/-- Deep equality is reflexive on JS-representable values. -/
theorem deepEqual_refl : ∀ v : JValue, jwf v = true → deepEqual v v = true
  | .null, _ => rfl
  | .undef, _ => rfl
  | .bool b, _ => by simp [deepEqual]
  | .num q, _ => by simp [deepEqual]
  | .str s, _ => by simp [deepEqual]
  | .arr xs, h => by
    simp only [jwf] at h
    simp only [deepEqual, deepEqualList_refl xs h, decide_True, Bool.and_self]
  | .obj kvs, h => by
    simp only [jwf, Bool.and_eq_true] at h
    simp only [deepEqual,
      deepEqualMembers_refl_gen kvs kvs (fun kv hk => hk) h.1 h.2, decide_True, Bool.and_self]

/-- Element-wise reflexivity. -/
theorem deepEqualList_refl : ∀ xs : List JValue, jwfList xs = true → deepEqualList xs xs = true
  | [], _ => rfl
  | x :: xs, h => by
    simp only [jwfList, Bool.and_eq_true] at h
    simp only [deepEqualList]
    rw [deepEqual_refl x h.1, deepEqualList_refl xs h.2]
    rfl

/-- Member-wise reflexivity against the full member list. -/
theorem deepEqualMembers_refl_gen :
    ∀ (sub kvs : List (String × JValue)),
      (∀ kv ∈ sub, kv ∈ kvs) → keysNodup (jkeys kvs) = true → jwfMembers sub = true →
      deepEqualMembers sub kvs = true
  | [], _, _, _, _ => rfl
  | kv :: rest, kvs, hsub, hnd, hwf => by
    simp only [jwfMembers, Bool.and_eq_true] at hwf
    have hmem : kv ∈ kvs := hsub kv (List.mem_cons_self _ _)
    have hkey : (jkeys kvs).contains kv.1 = true :=
      List.elem_eq_true_of_mem (List.mem_map_of_mem (·.1) hmem)
    have hlook := jlookup_self kvs hnd kv hmem
    simp only [deepEqualMembers]
    rw [hkey, hlook, deepEqual_refl kv.2 hwf.1,
      deepEqualMembers_refl_gen rest kvs (fun q hq => hsub q (List.mem_cons_of_mem _ hq)) hnd hwf.2]
    rfl
end

/-- The key-distinctness check coincides with `Nodup`. -/
theorem keysNodup_iff (l : List String) : keysNodup l = true ↔ l.Nodup := by
  induction l with
  | nil => simp [keysNodup]
  | cons k ks ih =>
    simp only [keysNodup, Bool.and_eq_true, Bool.not_eq_true', List.nodup_cons, ← ih]
    constructor
    · rintro ⟨h1, h2⟩
      refine ⟨fun hm => ?_, h2⟩
      rw [show ks.contains k = ks.elem k from rfl, List.elem_eq_true_of_mem hm] at h1
      cases h1
    · rintro ⟨h1, h2⟩
      refine ⟨?_, h2⟩
      cases hc : ks.contains k with
      | false => rfl
      | true =>
        have := List.mem_of_elem_eq_true hc
        exact absurd this h1

/-- Member well-formedness is value-wise. -/
theorem jwfMembers_iff (l : List (String × JValue)) :
    jwfMembers l = true ↔ ∀ kv ∈ l, jwf kv.2 = true := by
  induction l with
  | nil => simp [jwfMembers]
  | cons kv rest ih => simp [jwfMembers, Bool.and_eq_true, ih]

/-- Member normalisation is a value map. -/
theorem normalizeMembers_eq_map (kvs : List (String × JValue)) :
    normalizeMembers kvs = kvs.map fun kv => (kv.1, normalizeData kv.2) := by
  induction kvs with
  | nil => rfl
  | cons kv rest ih =>
    obtain ⟨k, v⟩ := kv
    simp [normalizeMembers, ih]

/-- Member normalisation preserves the key list. -/
theorem jkeys_normalizeMembers (kvs : List (String × JValue)) :
    jkeys (normalizeMembers kvs) = jkeys kvs := by
  rw [normalizeMembers_eq_map]
  simp [jkeys, List.map_map, Function.comp]

mutual
/-- Normalisation preserves JS-representability. -/
theorem jwf_normalizeData : ∀ v : JValue, jwf v = true → jwf (normalizeData v) = true
  | .null, _ => rfl
  | .undef, _ => rfl
  | .bool _, _ => rfl
  | .num _, _ => rfl
  | .str _, _ => rfl
  | .arr xs, h => by
    simp only [jwf] at h ⊢
    simp only [normalizeData, jwf]
    exact jwfList_normalizeList xs h
  | .obj kvs, h => by
    simp only [jwf, Bool.and_eq_true] at h
    simp only [normalizeData, jwf, Bool.and_eq_true]
    have hperm : (sortByKey (normalizeMembers kvs)).Perm (normalizeMembers kvs) :=
      List.perm_insertionSort keyLE (normalizeMembers kvs)
    have hwfm := jwfMembers_normalizeMembers kvs h.2
    constructor
    · rw [keysNodup_iff]
      have hkeys : (List.map (fun x => x.1) (sortByKey (normalizeMembers kvs))).Perm
          (List.map (fun x => x.1) kvs) := by
        refine (hperm.map fun x => x.1).trans ?_
        have h3 := jkeys_normalizeMembers kvs
        simp only [jkeys] at h3
        rw [h3]
      have hn := (keysNodup_iff _).mp h.1
      simp only [jkeys] at hn ⊢
      rw [hkeys.nodup_iff]
      exact hn
    · rw [jwfMembers_iff]
      intro kv hkv
      exact (jwfMembers_iff _).mp hwfm kv (hperm.mem_iff.mp hkv)

/-- Element normalisation preserves JS-representability. -/
theorem jwfList_normalizeList : ∀ xs : List JValue, jwfList xs = true → jwfList (normalizeList xs) = true
  | [], _ => rfl
  | x :: xs, h => by
    simp only [jwfList, Bool.and_eq_true] at h
    simp only [normalizeList, jwfList, Bool.and_eq_true]
    exact ⟨jwf_normalizeData x h.1, jwfList_normalizeList xs h.2⟩

/-- Member-value normalisation preserves JS-representability. -/
theorem jwfMembers_normalizeMembers :
    ∀ kvs : List (String × JValue), jwfMembers kvs = true → jwfMembers (normalizeMembers kvs) = true
  | [], _ => rfl
  | (k, v) :: rest, h => by
    simp only [jwfMembers, Bool.and_eq_true] at h
    simp only [normalizeMembers, jwfMembers, Bool.and_eq_true]
    exact ⟨jwf_normalizeData v h.1, jwfMembers_normalizeMembers rest h.2⟩
end

/-- C7: normalisation is order-independent in object keys — member lists
that are permutations of each other (with the distinct keys JS guarantees)
normalise to identical values, which therefore compare deep-equal — while
an array and a non-array mapping are never deep-equal in either order,
whatever their contents. -/
theorem C7_normalization_order_independent :
    (∀ l1 l2 : List (String × JValue), l1.Perm l2 → (l1.map Prod.fst).Nodup →
      normalizeData (.obj l1) = normalizeData (.obj l2)) ∧
    (∀ l1 l2 : List (String × JValue), l1.Perm l2 → (l1.map Prod.fst).Nodup →
      jwf (.obj l1) = true →
      deepEqual (normalizeData (.obj l1)) (normalizeData (.obj l2)) = true) ∧
    (∀ (xs : List JValue) (kvs : List (String × JValue)),
      deepEqual (.arr xs) (.obj kvs) = false ∧ deepEqual (.obj kvs) (.arr xs) = false) := by
  have hpart1 : ∀ l1 l2 : List (String × JValue), l1.Perm l2 → (l1.map Prod.fst).Nodup →
      normalizeData (.obj l1) = normalizeData (.obj l2) := by
    intro l1 l2 hperm hnodup
    simp only [normalizeData]
    congr 1
    apply sortByKey_eq_of_perm
    · rw [normalizeMembers_eq_map, normalizeMembers_eq_map]
      exact hperm.map _
    · have : (normalizeMembers l1).map Prod.fst = l1.map Prod.fst := jkeys_normalizeMembers l1
      rw [this]
      exact hnodup
  refine ⟨hpart1, ?_, ?_⟩
  · intro l1 l2 hperm hnodup hwf
    rw [← hpart1 l1 l2 hperm hnodup]
    exact deepEqual_refl _ (jwf_normalizeData _ hwf)
  · intro xs kvs
    constructor <;> simp [deepEqual]

/-- Witness for C7 at the spec's own example, the mappings
`(a:1, b:2)` and `(b:2, a:1)`. -/
theorem C7_normalization_order_independent_witness :
    normalizeData (.obj [("a", .num 1), ("b", .num 2)]) =
      normalizeData (.obj [("b", .num 2), ("a", .num 1)]) ∧
    deepEqual (normalizeData (.obj [("a", .num 1), ("b", .num 2)]))
      (normalizeData (.obj [("b", .num 2), ("a", .num 1)])) = true ∧
    deepEqual (.arr [.num 1, .num 2]) (.obj [("0", .num 1), ("1", .num 2)]) = false :=
  ⟨C7_normalization_order_independent.1 _ _
      (List.Perm.swap ("b", JValue.num 2) ("a", JValue.num 1) []) (by decide),
   C7_normalization_order_independent.2.1 _ _
      (List.Perm.swap ("b", JValue.num 2) ("a", JValue.num 1) []) (by decide) rfl,
   (C7_normalization_order_independent.2.2 [.num 1, .num 2] [("0", .num 1), ("1", .num 2)]).1⟩

/-- A stored snapshot for the C6 witness. -/
def c6Stored : Snapshot :=
  { name := "tool-search", timestamp := "2024-01-01T00:00:00Z", data := .obj [("a", .num 1)] }

/-- A non-update-mode store holding `c6Stored`. -/
def c6Store : SnapshotManagerState :=
  { updateSnapshots := false, snapshots := [("tool-search", c6Stored)] }

/-- Witness for C6 at a concrete mismatching comparison in non-update
mode. -/
theorem C6_compare_snapshot_semantics_witness :
    ((compareSnapshot c6Store "tool-search" (.obj [("a", .num 2)]) none).1.matched = false ∧
     (compareSnapshot c6Store "tool-search" (.obj [("a", .num 2)]) none).1.diff =
       some (generateDiff (projectedStored c6Stored none)
         (projectedActual (.obj [("a", .num 2)]) none))) ∧
    (compareSnapshot c6Store "tool-search" (.obj [("a", .num 2)]) none).2 = c6Store :=
  ⟨(C6_compare_snapshot_semantics c6Store "tool-search" (.obj [("a", .num 2)]) none).2.2.1
      c6Stored rfl rfl (by decide),
   (C6_compare_snapshot_semantics c6Store "tool-search" (.obj [("a", .num 2)]) none).2.2.2 rfl⟩
